import Mathlib

set_option linter.unusedVariables false

/-!
Shallow embedding of the CMinusCompiler repository (a C-minus to
three-address-code compiler front-end written in Python) and proofs about
its scanner lexeme table, parser transition selection, and code generator
actions.  Every definition is translated directly from the corresponding
Python source file; Python exceptions (IndexError, AttributeError,
KeyError, TypeError) are modelled by Option-valued functions returning
none.
-/

/-! ## Scanner data model (src/cminus/scanner/dfa.py, scanner.py) -/

/-- TokenType enum from src/cminus/scanner/dfa.py; the Python enum values
are the integers 1..7. -/
inductive TokenType
  | ID | KEYWORD | SYMBOL | NUM | COMMENT | WHITESPACE | EOF
  deriving DecidableEq, Repr

/-- The numeric enum value of a TokenType (Python member .value). -/
def TokenType.value : TokenType → Nat
  | .ID => 1
  | .KEYWORD => 2
  | .SYMBOL => 3
  | .NUM => 4
  | .COMMENT => 5
  | .WHITESPACE => 6
  | .EOF => 7

/-- Token dataclass from src/cminus/scanner/scanner.py. -/
structure Token where
  type : TokenType
  lexeme : String
  lineno : Nat
  deriving DecidableEq, Repr

/-- Reserved keyword list from src/cminus/scanner/scanner.py (KEYWORDS). -/
def KEYWORDS : List String :=
  ["if", "else", "endif", "void", "int", "repeat", "break", "until", "return"]

/-- The scanner lexeme table: an insertion-ordered mapping lexeme to index,
modelling the OrderedDict Scanner.symbol_table. -/
abbrev LexemeTable := List (String × Nat)

/-- Initial lexeme table seeded with the keywords, with indices i + 1
(Scanner.__init__). -/
def initialLexemeTable : LexemeTable :=
  KEYWORDS.enum.map (fun p => (p.2, p.1 + 1))

/-- Membership test for a lexeme, modelling Python lexeme not in dict. -/
def LexemeTable.hasLexeme (t : LexemeTable) (lex : String) : Bool :=
  t.any (fun p => p.1 == lex)

/-- Scanner._add_to_symbol_table: on an ID or KEYWORD token whose lexeme is
not yet present, insert it with index len(table) + 1. -/
def addToSymbolTable (t : LexemeTable) (tokenType : TokenType) (lex : String) :
    LexemeTable :=
  if (tokenType = TokenType.ID ∨ tokenType = TokenType.KEYWORD)
      ∧ ¬ t.hasLexeme lex then
    t ++ [(lex, t.length + 1)]
  else
    t

/-- Folding a scanned token stream through _add_to_symbol_table. -/
def scanTable (toks : List (TokenType × String)) : LexemeTable :=
  toks.foldl (fun t p => addToSymbolTable t p.1 p.2) initialLexemeTable

/-! ## Code generator data model (src/cminus/codegen) -/

/-- IdType enum from src/cminus/scanner/symbol_table.py. -/
inductive IdType
  | Int | Void | Array | Function | NotSpecified
  deriving DecidableEq, Repr

/-- The string enum value of an IdType (Python member .value). -/
def IdType.value : IdType → String
  | .Int => "int"
  | .Void => "void"
  | .Array => "array"
  | .Function => "function"
  | .NotSpecified => "not_specified"

/-- Operation enum from src/cminus/codegen/pb.py. -/
inductive Operation
  | Add | Mult | Sub | Eq | Lt | Assign | Jpf | Jp | Print | Empty
  deriving DecidableEq, Repr

/-- Addressing-mode tag of a Value (the Python prefix string:
immediate is the hash prefix, indirect the at-sign, direct the empty
string). -/
inductive AddrMode
  | direct | immediate | indirect
  deriving DecidableEq, Repr

/-- Value dataclass from src/cminus/codegen/pb.py: an addressing-mode
prefix, an optional integer, and an inferred IdType. -/
structure Value where
  mode : AddrMode := .direct
  value : Option Int := none
  type : IdType := .NotSpecified
  deriving DecidableEq, Repr

def Value.immediate (v : Int) (type : IdType := .NotSpecified) : Value :=
  { mode := .immediate, value := some v, type := type }

def Value.indirect (v : Int) (type : IdType := .NotSpecified) : Value :=
  { mode := .indirect, value := some v, type := type }

def Value.direct (v : Int) (type : IdType := .NotSpecified) : Value :=
  { mode := .direct, value := some v, type := type }

def Value.empty : Value := {}

/-- Instruction dataclass from src/cminus/codegen/pb.py. -/
structure Instruction where
  op : Operation
  arg1 : Value
  arg2 : Value := Value.empty
  arg3 : Value := Value.empty
  deriving DecidableEq, Repr

def Instruction.emptyInstr : Instruction :=
  { op := .Empty, arg1 := Value.empty }

/-- ProgramBlock from src/cminus/codegen/pb.py: an ordered list of
instructions. -/
structure ProgramBlock where
  instructions : List Instruction := []
  deriving DecidableEq, Repr

/-- ProgramBlock.i property: the number of instructions. -/
def ProgramBlock.i (pb : ProgramBlock) : Nat :=
  pb.instructions.length

/-- The ProgramBlock.i setter: a smaller value truncates the list, a larger
value extends it with EMPTY instructions.  (The Python setter slices with
instructions[:value]; all call sites set i to i - 1 or i + 1, for which
List.take matches the Python slice semantics.) -/
def ProgramBlock.setI (pb : ProgramBlock) (value : Nat) : ProgramBlock :=
  if value < pb.i then
    { instructions := pb.instructions.take value }
  else
    { instructions :=
        pb.instructions ++ List.replicate (value - pb.i) Instruction.emptyInstr }

/-- ProgramBlock.append. -/
def ProgramBlock.appendInstr (pb : ProgramBlock) (inst : Instruction) :
    ProgramBlock :=
  { instructions := pb.instructions ++ [inst] }

/-- ProgramBlock.__setitem__; Python raises IndexError when the index is out
of range, modelled as none. -/
def ProgramBlock.setInstr (pb : ProgramBlock) (index : Nat) (inst : Instruction) :
    Option ProgramBlock :=
  if index < pb.instructions.length then
    some { instructions := pb.instructions.set index inst }
  else
    none

/-! ## Symbol table (src/cminus/scanner/symbol_table.py) -/

/-- Id dataclass: a symbol-table record (renamed SymId: Id is taken by core Lean). -/
structure SymId where
  lexeme : String
  address : Option Int := none
  type : IdType := .NotSpecified
  argsType : List IdType := []
  returnType : IdType := .NotSpecified
  deriving DecidableEq, Repr

/-- One lexical scope: its local records in append order.  The Python
parent pointer is encoded by the position of the scope in the scope
stack below. -/
structure Scope where
  locals : List SymId := []
  deriving DecidableEq, Repr

/-- The symbol table: a stack of scopes (top of stack at the head; the
Python list keeps the top at the end and every lookup walks from the last
scope outward through parent pointers, which is exactly a head-first
walk of this list). -/
structure SymbolTable where
  declaring : Bool := false
  scopes : List Scope := [{}]
  deriving DecidableEq, Repr

/-- Scope.lookup on one scope: first record with the given lexeme. -/
def Scope.lookup (sc : Scope) (lexeme : String) : Option SymId :=
  sc.locals.find? (fun id => id.lexeme == lexeme)

/-- SymbolTable.lookup: walk the scope stack outward. -/
def SymbolTable.lookup (st : SymbolTable) (lexeme : String) : Option SymId :=
  st.scopes.firstM (fun sc => sc.lookup lexeme)

/-- Scope.lookup_by_instno on one scope. -/
def Scope.lookupByInstno (sc : Scope) (instno : Option Int) : Option SymId :=
  sc.locals.find? (fun id => id.address == instno && id.type == IdType.Function)

/-- SymbolTable.lookup_by_instno: function record whose address equals the
given instruction number. -/
def SymbolTable.lookupByInstno (st : SymbolTable) (instno : Option Int) : Option SymId :=
  st.scopes.firstM (fun sc => sc.lookupByInstno instno)

/-- Scope.lookup_by_address on one scope. -/
def Scope.lookupByAddress (sc : Scope) (address : Option Int) : Option SymId :=
  sc.locals.find? (fun id => id.address == address && id.type != IdType.Function)

/-- SymbolTable.lookup_by_address: data record at the given address. -/
def SymbolTable.lookupByAddress (st : SymbolTable) (address : Option Int) : Option SymId :=
  st.scopes.firstM (fun sc => sc.lookupByAddress address)

/-- SymbolTable.create_scope. -/
def SymbolTable.createScope (st : SymbolTable) : SymbolTable :=
  { st with scopes := {} :: st.scopes }

/-- SymbolTable.delete_scope; Python list.pop raises on an empty list. -/
def SymbolTable.deleteScope (st : SymbolTable) : Option SymbolTable :=
  match st.scopes with
  | [] => none
  | _ :: rest => some { st with scopes := rest }

/-- SymbolTable.add_symbol: appends a record to the top scope when in
declaring mode or forced, and clears declaring; otherwise returns None
(modelled by the Bool in the result indicating whether a record was
added). -/
def SymbolTable.addSymbol (st : SymbolTable) (lexeme : String)
    (address : Option Int := none) (force : Bool := false) :
    Option SymbolTable × Bool :=
  if st.declaring || force then
    match st.scopes with
    | [] => (none, true)
    | sc :: rest =>
        (some { declaring := false,
                scopes := { locals := sc.locals ++ [{ lexeme := lexeme, address := address }] } :: rest },
         true)
  else (some st, false)

/-- In-place mutation of the record returned by a lookup (Python mutates
the shared SymId object): apply f to the first record, in lookup order,
matching the lexeme. -/
def Scope.updateFirst (sc : Scope) (lexeme : String) (f : SymId → SymId) :
    Scope × Bool :=
  match h : sc.locals.findIdx? (fun id => id.lexeme == lexeme) with
  | some k => ({ locals := sc.locals.modify f k }, true)
  | none => (sc, false)

/-- Apply f to the record SymbolTable.lookup would return. -/
def SymbolTable.updateFirst (st : SymbolTable) (lexeme : String) (f : SymId → SymId) :
    SymbolTable :=
  { st with scopes := go st.scopes }
where
  go : List Scope → List Scope
    | [] => []
    | sc :: rest =>
        match sc.updateFirst lexeme f with
        | (sc', true) => sc' :: rest
        | (_, false) => sc :: go rest

/-- Apply f to the record SymbolTable.lookup_by_address would return. -/
def SymbolTable.updateFirstByAddress (st : SymbolTable) (address : Option Int)
    (f : SymId → SymId) : SymbolTable :=
  { st with scopes := go st.scopes }
where
  go : List Scope → List Scope
    | [] => []
    | sc :: rest =>
        match sc.locals.findIdx? (fun id => id.address == address && id.type != IdType.Function) with
        | some k => { locals := sc.locals.modify f k } :: rest
        | none => sc :: go rest

/-! ## Scope layers (src/cminus/codegen/scope.py) -/

/-- An entry of a Layer jail: Python mixes int program counters with the
string bar marker in the same list. -/
inductive JailEntry
  | bar
  | pc (n : Nat)
  deriving DecidableEq, Repr

/-- Layer from src/cminus/codegen/scope.py: snapshots of the bump pointers
and the jail.  All stacks keep their top at the head (Python appends and
pops at the end of the list). -/
structure Layer where
  dataStack : List Int := []
  tempStack : List Int := []
  jail : List JailEntry := []
  deriving DecidableEq, Repr

/-- ScopeType enum from src/cminus/codegen/scope.py. -/
inductive ScopeType
  | Function | Temporary | Simple | Container
  deriving DecidableEq, Repr

/-- CodeGenConfig defaults (src/cminus/codegen/config.py): word size 4,
data segment 0, temp segment 1000, stack 2000.  compiler.py always
constructs CodeGenConfig() with these defaults. -/
def wordSize : Int := 4

/-- config.word_size as the Value operand it is in the source
(Value.immediate(4)). -/
def wordSizeVal : Value := Value.immediate 4

def dataStart : Int := 0
def tempStart : Int := 1000
def stackStart : Int := 2000

/-- RegisterFile from src/cminus/codegen/ar.py: the four register data
addresses.  CodeGenerator.__init__ allocates them with four getvar calls,
so sp, fp, ra, rv are 0, 4, 8, 12. -/
structure RegisterFile where
  sp : Int := 0
  fp : Int := 4
  ra : Int := 8
  rv : Int := 12
  deriving DecidableEq, Repr

/-- An entry of the semantic stack (StackEntry in
src/cminus/codegen/semantic_stack.py): a Value or an Operation, plus a
description used only for diagnostics. -/
inductive SSItem
  | val (v : Value)
  | operation (o : Operation)
  deriving DecidableEq, Repr

structure StackEntry where
  value : SSItem
  description : String := ""
  deriving DecidableEq, Repr

/-- The whole mutable compiler state owned by one compilation session:
program block, machine state (src/cminus/codegen/machine_state.py),
semantic stack (top at head), scope manager and its four layers, symbol
table, and the semantic-error logger state
(src/cminus/codegen/error_logger.py). -/
structure CGState where
  pb : ProgramBlock := {}
  ss : List StackEntry := []
  dataAddress : Int := 16
  tempAddress : Int := 1000
  dataPointer : Option Int := none
  tempPointer : Option Int := none
  argPointer : List Nat := []
  lastId : Option Token := none
  lastType : Option IdType := none
  lastFunctionName : Option String := none
  declaringArgs : Bool := false
  setExec : Bool := false
  rf : RegisterFile := {}
  layerFunction : Layer := {}
  layerTemporary : Layer := {}
  layerSimple : Layer := {}
  layerContainer : Layer := {}
  scopeTypes : List ScopeType := []
  scopeDelete : Bool := false
  symtab : SymbolTable := {}
  errors : List (Nat × String) := []
  anyError : Bool := false
  deriving DecidableEq, Repr

/-- The layer for a scope type (ScopeManager._layers dictionary). -/
def CGState.getLayer (s : CGState) : ScopeType → Layer
  | .Function => s.layerFunction
  | .Temporary => s.layerTemporary
  | .Simple => s.layerSimple
  | .Container => s.layerContainer

def CGState.setLayer (s : CGState) : ScopeType → Layer → CGState
  | .Function, l => { s with layerFunction := l }
  | .Temporary, l => { s with layerTemporary := l }
  | .Simple, l => { s with layerSimple := l }
  | .Container, l => { s with layerContainer := l }

/-- CodeGenErrorLogger.log: record the formatted error and set the error
flag.  The message text written to semantic_errors.txt is
hash lineno space colon space Semantic Error! message; we record the raw
(lineno, message) pair and the flag. -/
def CGState.logError (s : CGState) (lineno : Nat) (message : String) : CGState :=
  { s with errors := s.errors ++ [(lineno, message)], anyError := true }

/-- MachineState.getvar: allocate size words of the data segment. -/
def CGState.getvar (s : CGState) (size : Int := 1) : Int × CGState :=
  (s.dataAddress, { s with dataAddress := s.dataAddress + size * wordSize })

/-- MachineState.gettemp: allocate one word of the temp segment. -/
def CGState.gettemp (s : CGState) : Int × CGState :=
  (s.tempAddress, { s with tempAddress := s.tempAddress + wordSize })

/-- Append one instruction to the program block. -/
def CGState.emit (s : CGState) (inst : Instruction) : CGState :=
  { s with pb := s.pb.appendInstr inst }

/-! ## Activation stack (src/cminus/codegen/ar.py) -/

/-- ActivationsStack.push: emit a store through sp and bump sp. -/
def asPush (v : Value) (s : CGState) : CGState :=
  (s.emit { op := .Assign, arg1 := v, arg2 := Value.indirect s.rf.sp }).emit
    { op := .Add, arg1 := Value.direct s.rf.sp, arg2 := wordSizeVal,
      arg3 := Value.direct s.rf.sp }

/-- ActivationsStack.pop: decrement sp and emit a load through sp. -/
def asPop (address : Value) (s : CGState) : CGState :=
  (s.emit { op := .Sub, arg1 := Value.direct s.rf.sp, arg2 := wordSizeVal,
            arg3 := Value.direct s.rf.sp }).emit
    { op := .Assign, arg1 := Value.indirect s.rf.sp, arg2 := address }

/-- ActivationsStack.create_scope: push fp and point fp at the new frame. -/
def asCreateScope (s : CGState) : CGState :=
  (asPush (Value.direct s.rf.fp) s).emit
    { op := .Assign, arg1 := Value.direct s.rf.sp, arg2 := Value.direct s.rf.fp }

/-- ActivationsStack.delete_scope: reset sp to fp and pop the saved fp. -/
def asDeleteScope (s : CGState) : CGState :=
  asPop (Value.direct s.rf.fp)
    (s.emit { op := .Assign, arg1 := Value.direct s.rf.fp,
              arg2 := Value.direct s.rf.sp })

/-- ActivationsStack.reserve: push size zero words. -/
def asReserve (size : Nat) (s : CGState) : CGState :=
  (List.range size).foldl (fun s _ => asPush (Value.immediate 0) s) s

/-- ActivationsStack.push_rf. -/
def asPushRf (s : CGState) : CGState :=
  asPush (Value.direct s.rf.ra)
    (asPush (Value.direct s.rf.fp) (asPush (Value.direct s.rf.sp) s))

/-- ActivationsStack.pop_rf. -/
def asPopRf (s : CGState) : CGState :=
  asPop (Value.direct s.rf.sp)
    (asPop (Value.direct s.rf.fp) (asPop (Value.direct s.rf.ra) s))

/-! ## Scope manager operations (src/cminus/codegen/scope.py) -/

/-- Layer.create_scope: snapshot the bump pointers and open a jail segment
with the bar marker. -/
def layerCreateScope (ty : ScopeType) (s : CGState) : CGState :=
  let l := s.getLayer ty
  s.setLayer ty
    { dataStack := s.dataAddress :: l.dataStack,
      tempStack := s.tempAddress :: l.tempStack,
      jail := JailEntry.bar :: l.jail }

/-- The while loop of Layer.delete_scope followed by the final jail.pop():
patch every jail entry above the topmost bar to JP current-pc, then drop
the bar.  pb.i is unchanged by the patches, so every prisoner is patched
to the same target.  Python raises when the jail is exhausted without a
bar, or when a prisoner index is out of range. -/
def jailFlush : List JailEntry → ProgramBlock → Option (List JailEntry × ProgramBlock)
  | [], _ => none
  | .bar :: rest, pb => some (rest, pb)
  | .pc j :: rest, pb => do
      let pb1 ← pb.setInstr j { op := .Jp, arg1 := Value.direct (pb.i : Int) }
      jailFlush rest pb1

/-- Layer.delete_scope: restore the bump pointers from the snapshots and
flush the top jail segment. -/
def layerDeleteScope (ty : ScopeType) (s : CGState) : Option CGState := do
  let l := s.getLayer ty
  match l.dataStack, l.tempStack with
  | d :: ds, t :: ts => do
      let (jail1, pb1) ← jailFlush l.jail s.pb
      let s := { s with dataAddress := d, tempAddress := t, pb := pb1 }
      some (s.setLayer ty { dataStack := ds, tempStack := ts, jail := jail1 })
  | _, _ => none

/-- Layer.prison: record the current pc on the jail and reserve the slot
(pb.i += 1 appends one EMPTY instruction). -/
def layerPrison (ty : ScopeType) (s : CGState) : CGState :=
  let l := s.getLayer ty
  let s := s.setLayer ty { l with jail := JailEntry.pc s.pb.i :: l.jail }
  { s with pb := s.pb.setI (s.pb.i + 1) }

/-- Layer.prison_break: pop the jail top and patch it to JP current-pc.
Popping the bar marker makes Python index the block with a string, and
popping an empty jail raises; both are modelled as none. -/
def layerPrisonBreak (ty : ScopeType) (s : CGState) : Option CGState :=
  let l := s.getLayer ty
  match l.jail with
  | .pc j :: rest => do
      let pb1 ← s.pb.setInstr j { op := .Jp, arg1 := Value.direct (s.pb.i : Int) }
      some ({ s with pb := pb1 }.setLayer ty { l with jail := rest })
  | _ => none

/-- Layer.are_we_inside: a scope of this kind is open. -/
def layerAreWeInside (ty : ScopeType) (s : CGState) : Bool :=
  !(s.getLayer ty).dataStack.isEmpty

/-- ScopeManager.push_type: with a pending delete, consume the flag and
delete the named layer's top scope (plus the activation frame for
Function scopes); otherwise stage the type. -/
def pushType (ty : ScopeType) (s : CGState) : Option CGState :=
  if s.scopeDelete then do
    let s ← layerDeleteScope ty { s with scopeDelete := false }
    some (if ty = ScopeType.Function then asDeleteScope s else s)
  else
    some { s with scopeTypes := ty :: s.scopeTypes }

/-- ScopeManager.prison: jail on the layer of the staged type. -/
def smPrison (s : CGState) : Option CGState :=
  match s.scopeTypes with
  | ty :: rest => some (layerPrison ty { s with scopeTypes := rest })
  | [] => none

/-- ScopeManager.prison_break. -/
def smPrisonBreak (s : CGState) : Option CGState :=
  match s.scopeTypes with
  | ty :: rest => layerPrisonBreak ty { s with scopeTypes := rest }
  | [] => none

/-- ScopeManager.create_scope: open the layer of the staged type, plus an
activation frame for Function scopes. -/
def smCreateScope (s : CGState) : Option CGState :=
  match s.scopeTypes with
  | ty :: rest =>
      let s := layerCreateScope ty { s with scopeTypes := rest }
      some (if ty = ScopeType.Function then asCreateScope s else s)
  | [] => none

/-! ## Semantic stack helpers (src/cminus/codegen/semantic_stack.py) -/

def ssPush (item : SSItem) (description : String) (s : CGState) : CGState :=
  { s with ss := { value := item, description := description } :: s.ss }

/-- SemanticStack.pop (value only). -/
def ssPop (s : CGState) : Option (SSItem × CGState) :=
  match s.ss with
  | e :: rest => some (e.value, { s with ss := rest })
  | [] => none

/-- SemanticStack.pop with return_description=True. -/
def ssPopEntry (s : CGState) : Option (StackEntry × CGState) :=
  match s.ss with
  | e :: rest => some (e, { s with ss := rest })
  | [] => none

/-- SemanticStack.from_top. -/
def ssFromTop (s : CGState) (offset : Nat := 0) : Option SSItem :=
  (s.ss.get? offset).map (fun e => e.value)

/-- Value-or-crash view of a stack item: every codegen routine that reads
the .type or .value attribute of a popped entry, or embeds it in an
instruction operand slot, needs a Value there (an Operation would raise
AttributeError or build a malformed instruction). -/
def SSItem.asValue : SSItem → Option Value
  | .val v => some v
  | .operation _ => none

def SSItem.asOperation : SSItem → Option Operation
  | .operation o => some o
  | .val _ => none

/-- Python str() of an Operation enum member, used in stack-entry
descriptions. -/
def Operation.pyStr : Operation → String
  | .Add => "Operation.Add"
  | .Mult => "Operation.Mult"
  | .Sub => "Operation.Sub"
  | .Eq => "Operation.Eq"
  | .Lt => "Operation.Lt"
  | .Assign => "Operation.Assign"
  | .Jpf => "Operation.Jpf"
  | .Jp => "Operation.Jp"
  | .Print => "Operation.Print"
  | .Empty => "Operation.Empty"

/-! ## Action routines (src/cminus/codegen/codegen.py) -/

/-- CodeGenerator.label: push the current pc. -/
def labelAction (s : CGState) : CGState :=
  ssPush (.val (Value.direct (s.pb.i : Int))) "label" s

/-- CodeGenerator.hold: label, then advance pc by one (reserving one EMPTY
slot). -/
def holdAction (s : CGState) : CGState :=
  let s := labelAction s
  { s with pb := s.pb.setI (s.pb.i + 1) }

/-- CodeGenerator.scope_start. -/
def scopeStart (s : CGState) : Option CGState :=
  smCreateScope { s with symtab := s.symtab.createScope }

/-- CodeGenerator.scope_end: pop the symbol-table scope now, and only flag
the scope manager for a deferred layer delete. -/
def scopeEnd (s : CGState) : Option CGState := do
  let st ← s.symtab.deleteScope
  some { s with symtab := st, scopeDelete := true }

/-- CodeGenerator.function_scope. -/
def functionScope (s : CGState) : Option CGState := pushType ScopeType.Function s

/-- CodeGenerator.container_scope. -/
def containerScope (s : CGState) : Option CGState := pushType ScopeType.Container s

/-- CodeGenerator.temporary_scope. -/
def temporaryScope (s : CGState) : Option CGState := pushType ScopeType.Temporary s

/-- CodeGenerator.simple_scope. -/
def simpleScope (s : CGState) : Option CGState := pushType ScopeType.Simple s

/-- CodeGenerator.prison. -/
def prison (s : CGState) : Option CGState := smPrison s

/-- CodeGenerator.prison_break. -/
def prisonBreak (s : CGState) : Option CGState := smPrisonBreak s

/-- CodeGenerator.check_in_container: on break, error unless a Container
scope is open. -/
def checkInContainer (token : Token) (s : CGState) : CGState :=
  if layerAreWeInside ScopeType.Container s then s
  else s.logError token.lineno "No 'repeat ... until' found for 'break'."

/-- CodeGenerator.jpf_repeat: pop the condition and the loop label and emit
the backward JPF. -/
def jpfRepeat (s : CGState) : Option CGState := do
  let (c, s) ← ssPop s
  let condition ← c.asValue
  let (l, s) ← ssPop s
  let label ← l.asValue
  some (s.emit { op := .Jpf, arg1 := condition, arg2 := label })

/-- CodeGenerator.op_exec: pop rhs, operator, lhs; log a type-mismatch
error for each operand whose kind is neither int nor NotSpecified, with
the operand's own kind name interpolated; then always emit the operation
into a fresh int temporary and push it. -/
def opExec (token : Token) (s : CGState) : Option CGState := do
  let (a2, s) ← ssPop s
  let (o, s) ← ssPop s
  let op ← o.asOperation
  let (a1, s) ← ssPop s
  let arg1 ← a1.asValue
  let arg2 ← a2.asValue
  let s := [arg1, arg2].foldl (fun s arg =>
    if arg.type = IdType.Int ∨ arg.type = IdType.NotSpecified then s
    else s.logError token.lineno
      ("Type mismatch in operands, Got " ++ arg.type.value ++ " instead of int.")) s
  let (tAddr, s) := s.gettemp
  let t := Value.direct tAddr IdType.Int
  let s := s.emit { op := op, arg1 := arg1, arg2 := arg2, arg3 := t }
  some (ssPush (.val t) ("op_exec " ++ op.pyStr) s)

/-- CodeGenerator.declare_function: snapshot the bump pointers, roll the
program counter back by one when a previous function has already been
declared (discarding the spurious zero-initialization emitted for the
function's name), retype the symbol record, bind its address to the
current pc, and on the first function reserve the jump-to-main slot. -/
def declareFunction (s : CGState) : Option CGState := do
  let lastId ← s.lastId
  let s := { s with dataPointer := some s.dataAddress,
                    tempPointer := some s.tempAddress,
                    lastFunctionName := some lastId.lexeme }
  let s := if s.setExec then { s with pb := s.pb.setI (s.pb.i - 1) } else s
  let _ ← s.symtab.lookup lastId.lexeme
  let s := { s with
    symtab := s.symtab.updateFirst lastId.lexeme (fun id =>
      { id with type := .Function, returnType := id.type,
                address := some (s.pb.i : Int) }) }
  if s.setExec then
    some s
  else do
    let s := { s with setExec := true }
    let s := { s with pb := s.pb.setI (s.pb.i - 1) }
    let (entry, s) ← ssPopEntry s
    let s := holdAction s
    some (ssPush entry.value entry.description s)

/-- Python range() as a list, for the positive and negative steps used by
store and restore (the word size, so the step is never zero). -/
def pyRange (lo hi step : Int) : List Int :=
  if 0 < step then
    (List.range ((hi - lo + step - 1) / step).toNat).map (fun k => lo + step * k)
  else if step < 0 then
    (List.range ((lo - hi + (-step) - 1) / (-step)).toNat).map (fun k => lo + step * k)
  else []

/-- CodeGenerator.store: push the live data and temp words and the register
file. -/
def store (s : CGState) : Option CGState := do
  let dp ← s.dataPointer
  let s := (pyRange dp s.dataAddress wordSize).foldl
      (fun s a => asPush (Value.direct a) s) s
  let tp ← s.tempPointer
  let s := (pyRange tp s.tempAddress wordSize).foldl
      (fun s a => asPush (Value.direct a) s) s
  some (asPushRf s)

/-- The loop body of CodeGenerator.push_args, with the Python range fuel
made explicit: pop an argument, record its kind, push it on the runtime
stack. -/
def pushArgsLoop : Nat → List IdType → CGState → Option (List IdType × CGState)
  | 0, acc, s => some (acc, s)
  | n + 1, acc, s => do
      let (item, s) ← ssPop s
      let arg ← item.asValue
      pushArgsLoop n (acc ++ [arg.type]) (asPush arg s)

/-- CodeGenerator.push_args: pop the semantic stack down to the depth
recorded by arg_pass, pushing each popped argument on the runtime stack
(so the top of the semantic stack, the last source argument, is pushed
first), and return the recorded kinds reversed into source order. -/
def pushArgs (s : CGState) : Option (List IdType × CGState) :=
  match s.argPointer with
  | [] => none
  | d :: rest => do
      let s := { s with argPointer := rest }
      let (acc, s) ← pushArgsLoop (s.ss.length - d) [] s
      some (acc.reverse, s)

/-- CodeGenerator.restore: pop the register file and the saved temp and
data words in reverse order. -/
def restore (s : CGState) : Option CGState := do
  let s := asPopRf s
  let tp ← s.tempPointer
  let s := (pyRange s.tempAddress tp (-wordSize)).foldl
      (fun s a => asPop (Value.direct (a - wordSize)) s) s
  let dp ← s.dataPointer
  let s := (pyRange s.dataAddress dp (-wordSize)).foldl
      (fun s a => asPop (Value.direct (a - wordSize)) s) s
  some s

/-- CodeGenerator.collect: assign rv into a fresh temporary carrying the
callee's return kind and push it. -/
def collect (returnType : IdType) (s : CGState) : CGState :=
  let (tAddr, s) := s.gettemp
  let t := Value.direct tAddr returnType
  let s := s.emit { op := .Assign, arg1 := Value.direct s.rf.rv, arg2 := t }
  ssPush (.val t) "collect" s

/-- CodeGenerator.function_call: store the frame, push the arguments,
look the callee up by its entry pc, run the signature checks, set ra to
pc + 2, jump, restore the frame and collect the return value. -/
def functionCall (token : Token) (s : CGState) : Option CGState := do
  let s ← store s
  let (argsType, s) ← pushArgs s
  let (instnoItem, s) ← ssPop s
  let instno ← instnoItem.asValue
  let fid ← s.symtab.lookupByInstno instno.value
  let s := if argsType.length ≠ fid.argsType.length then
      s.logError token.lineno
        ("Mismatch in numbers of arguments of '" ++ fid.lexeme ++ "'.")
    else s
  let arglen := min argsType.length fid.argsType.length
  let s := (((argsType.take arglen).zip (fid.argsType.take arglen)).enum).foldl
    (fun s p =>
      if p.2.1 = p.2.2 ∨ p.2.1 = IdType.NotSpecified then s
      else s.logError token.lineno
        ("Mismatch in type of argument " ++ toString (p.1 + 1) ++ " of '"
          ++ fid.lexeme ++ "'. Expected '" ++ p.2.2.value ++ "' but got '"
          ++ p.2.1.value ++ "' instead.")) s
  let s := s.emit { op := .Assign, arg1 := Value.immediate ((s.pb.i : Int) + 2),
                    arg2 := Value.direct s.rf.ra }
  let s := s.emit { op := .Jp, arg1 := instno }
  let s ← restore s
  some (collect fid.returnType s)

/-! ## Semantic error logger and output emission
(src/cminus/codegen/error_logger.py and the __main__ block of
src/compiler.py) -/

/-- CodeGenErrorLogger: the session's semantic-error log.  The file handle
is external I/O; we record the logged (lineno, message) pairs and the
any_error flag, which is what the output decision reads. -/
structure CodeGenErrorLogger where
  entries : List (Nat × String) := []
  anyError : Bool := false
  deriving DecidableEq, Repr

/-- CodeGenErrorLogger.log: write the formatted line and set the flag. -/
def CodeGenErrorLogger.log (lg : CodeGenErrorLogger) (lineno : Nat)
    (message : String) : CodeGenErrorLogger :=
  { entries := lg.entries ++ [(lineno, message)], anyError := true }

/-- The semantic-error log calls of a whole compilation session, applied to
the logger constructed at session start. -/
def applyLogs (calls : List (Nat × String)) : CodeGenErrorLogger :=
  calls.foldl (fun lg c => lg.log c.1 c.2) {}

/-- The __main__ decision in src/compiler.py: output.txt is written exactly
when the logger's any_error flag is still clear. -/
def writesOutput (lg : CodeGenErrorLogger) : Bool :=
  !lg.anyError

/-! ## Parser transition selection (src/cminus/parser/dfa.py) -/

/-- Matchable: a token-kind test plus a lexeme regex.  The compiled regex
re.match(pattern, lexeme) is modelled by its satisfaction predicate on
the lexeme (the default pattern .+ is the always-true predicate on the
nonempty lexemes the scanner produces). -/
structure Matchable where
  tokenType : TokenType
  lexemePattern : String → Bool

def Matchable.matchesTok (m : Matchable) (token : Token) : Bool :=
  m.tokenType == token.type && m.lexemePattern token.lexeme

/-- An element of a FIRST or FOLLOW list: a Matchable or the
EpsilonMatchable marker. -/
inductive SetEntry
  | matchable (m : Matchable)
  | epsilonMatchable

/-- ParserDFA._in_set: some non-epsilon member matches the token. -/
def inSet (theSet : List SetEntry) (token : Token) : Bool :=
  theSet.any (fun e => match e with
    | .matchable m => m.matchesTok token
    | .epsilonMatchable => false)

/-- Whether a FIRST list contains the EpsilonMatchable marker. -/
def hasEpsilon (theSet : List SetEntry) : Bool :=
  theSet.any (fun e => match e with
    | .epsilonMatchable => true
    | .matchable _ => false)

/-- The FIRST and FOLLOW lists of one grammar automaton. -/
structure PDfaSets where
  first : List SetEntry
  follow : List SetEntry

/-- ParserDFA.in_follow. -/
def inFollow (d : PDfaSets) (token : Token) : Bool :=
  inSet d.follow token

/-- ParserDFA.in_first: membership in FIRST, falling back to FOLLOW when
FIRST contains the epsilon marker. -/
def inFirst (d : PDfaSets) (token : Token) : Bool :=
  let m := inSet d.first token
  if !m && hasEpsilon d.first then inFollow d token
  else m

/-- One outgoing transition of a parser state.  A non-terminal transition
carries its child automaton's FIRST/FOLLOW sets and its display name
(already passed through format_nonterminal_name). -/
inductive PTransition
  | terminal (target : Nat) (tokenType : TokenType) (value : Option String)
  | nonTerminal (target : Nat) (childSets : PDfaSets) (name : String)
  | epsilon (target : Nat)

/-- The target state of a transition (the .target attribute). -/
def PTransition.target : PTransition → Nat
  | .terminal t _ _ => t
  | .nonTerminal t _ _ => t
  | .epsilon t => t

/-- TerminalTransition.matches: the token kind matches, and the expected
lexeme matches or is unconstrained. -/
def terminalMatches (tokenType : TokenType) (value : Option String)
    (token : Token) : Bool :=
  token.type == tokenType && (value == some token.lexeme || value == none)

/-- The outcome of one ParserDFA.transition call, at selection level: which
transition is taken (a terminal consumes the lookahead, the others do
not), or which syntax error is reported and raised. -/
inductive SelectOutcome
  | takeTerminal (target : Nat)
  | enterNonTerminal (target : Nat) (name : String)
  | takeEpsilon (target : Nat)
  | missingTerminal (reported : String)
  | missingNonTerminal (reported : String)
  | illegalToken
  deriving DecidableEq, Repr

/-- Python x or y on the transition value string: y when x is None or
empty. -/
def pyOr (v : Option String) (alt : String) : String :=
  match v with
  | some x => if x = "" then alt else x
  | none => alt

/-- The selection for-loop of ParserDFA.transition: first terminal whose
token matches or non-terminal whose FIRST admits the lookahead, in
declared order. -/
def selectLoop : List PTransition → Token → Option SelectOutcome
  | [], _ => none
  | .terminal tgt tt v :: rest, tok =>
      if terminalMatches tt v tok then some (.takeTerminal tgt)
      else selectLoop rest tok
  | .nonTerminal tgt sets name :: rest, tok =>
      if inFirst sets tok then some (.enterNonTerminal tgt name)
      else selectLoop rest tok
  | .epsilon _ :: rest, tok => selectLoop rest tok

/-- The isinstance test of the all() call in the error branch of
ParserDFA.transition. -/
def PTransition.isTerminalOrEpsilon : PTransition → Bool
  | .terminal _ _ _ => true
  | .epsilon _ => true
  | .nonTerminal _ _ _ => false

/-- The isinstance test used to find the epsilon transition. -/
def PTransition.isEpsilonTrans : PTransition → Bool
  | .epsilon _ => true
  | _ => false

/-- The isinstance test used to find the non-terminal transition. -/
def PTransition.isNonTerminalTrans : PTransition → Bool
  | .nonTerminal _ _ _ => true
  | _ => false

/-- The syntax-error branch of ParserDFA.transition.  When only terminal
and epsilon transitions leave the state, the reported lexeme is the
first transition's expected value, or its token kind's numeric enum
value; Python raises (none) when the state has no transitions or its
first transition is an epsilon (no .value attribute). -/
def errorBranch (trs : List PTransition) (token : Token) : Option SelectOutcome :=
  if trs.all PTransition.isTerminalOrEpsilon then
    match trs with
    | .terminal _ tt v :: _ => some (.missingTerminal (pyOr v (toString tt.value)))
    | _ => none
  else
    match trs.find? PTransition.isNonTerminalTrans with
    | some (.nonTerminal _ sets name) =>
        if inSet sets.follow token then some (.missingNonTerminal name)
        else some .illegalToken
    | _ => none

/-- ParserDFA.transition at selection level: try the transitions in order,
then the epsilon transition guarded by the automaton's own FOLLOW set,
then the error branch. -/
def transitionSelect (parentFollow : List SetEntry) (trs : List PTransition)
    (token : Token) : Option SelectOutcome :=
  match selectLoop trs token with
  | some r => some r
  | none =>
      match trs.find? PTransition.isEpsilonTrans with
      | some (.epsilon tgt) =>
          if inSet parentFollow token then some (.takeEpsilon tgt)
          else errorBranch trs token
      | _ => errorBranch trs token

/-- The MissingTerminal handler in NonTerminalTransition.matches: resume at
the first transition's target with the same lookahead token (nothing is
consumed). -/
def recoverMissingTerminal (trs : List PTransition) (token : Token) :
    Option (Nat × Token) :=
  match trs with
  | t :: _ => some (t.target, token)
  | [] => none

/-! ## Lexeme table lemmas and C6 -/

/-- Well-formedness of the lexeme table: pairwise-distinct lexemes, and the
indices are exactly 1..n in insertion order. -/
def tableOk (t : LexemeTable) : Prop :=
  (t.map Prod.fst).Nodup ∧ t.map Prod.snd = List.range' 1 t.length

instance (t : LexemeTable) : Decidable (tableOk t) := by
  unfold tableOk; infer_instance

theorem hasLexeme_iff (t : LexemeTable) (lex : String) :
    t.hasLexeme lex = true ↔ lex ∈ t.map Prod.fst := by
  unfold LexemeTable.hasLexeme
  rw [List.any_eq_true]
  constructor
  · rintro ⟨p, hp, he⟩
    exact List.mem_map.mpr ⟨p, hp, by simpa using he⟩
  · intro hm
    obtain ⟨p, hp, he⟩ := List.mem_map.mp hm
    exact ⟨p, hp, by simpa using he⟩

theorem tableOk_add (t : LexemeTable) (tt : TokenType) (lex : String)
    (h : tableOk t) : tableOk (addToSymbolTable t tt lex) := by
  unfold addToSymbolTable
  split
  · next hcond =>
    obtain ⟨hn, hidx⟩ := h
    have hlex : lex ∉ t.map Prod.fst := by
      rw [← hasLexeme_iff]
      simpa using hcond.2
    constructor
    · simp [List.nodup_append, hn, hlex]
    · simp [hidx, List.range'_concat, Nat.add_comm]
  · exact h

theorem tableOk_foldl (toks : List (TokenType × String)) (t : LexemeTable)
    (h : tableOk t) :
    tableOk (toks.foldl (fun t p => addToSymbolTable t p.1 p.2) t) := by
  induction toks generalizing t with
  | nil => exact h
  | cons p rest ih => exact ih _ (tableOk_add _ _ _ h)

/-- C6: the lexeme table is seeded with the nine keywords at indices 1..9
in canonical order; after any scanned token stream it has exactly one
entry per lexeme with sequential indices in insertion order; an ID or
KEYWORD lexeme not yet present is appended with index size + 1; a lexeme
already present leaves the table (and hence its index) unchanged. -/
theorem C6_lexeme_table (toks : List (TokenType × String)) (tt : TokenType)
    (lex : String) (htt : tt = TokenType.ID ∨ tt = TokenType.KEYWORD) :
    initialLexemeTable =
      [("if", 1), ("else", 2), ("endif", 3), ("void", 4), ("int", 5),
       ("repeat", 6), ("break", 7), ("until", 8), ("return", 9)] ∧
    tableOk (scanTable toks) ∧
    (LexemeTable.hasLexeme (scanTable toks) lex = false →
      addToSymbolTable (scanTable toks) tt lex
        = scanTable toks ++ [(lex, (scanTable toks).length + 1)]) ∧
    (LexemeTable.hasLexeme (scanTable toks) lex = true →
      addToSymbolTable (scanTable toks) tt lex = scanTable toks) := by
  refine ⟨by decide, tableOk_foldl toks _ (by decide), ?_, ?_⟩
  · intro hnot
    unfold addToSymbolTable
    simp [hnot, htt]
  · intro hyes
    unfold addToSymbolTable
    simp [hyes]

/-- C6 witness: a concrete session scanning one identifier. -/
theorem C6_lexeme_table_witness :
    initialLexemeTable =
      [("if", 1), ("else", 2), ("endif", 3), ("void", 4), ("int", 5),
       ("repeat", 6), ("break", 7), ("until", 8), ("return", 9)] ∧
    tableOk (scanTable [(TokenType.ID, "x")]) ∧
    (LexemeTable.hasLexeme (scanTable [(TokenType.ID, "x")]) "x" = false →
      addToSymbolTable (scanTable [(TokenType.ID, "x")]) TokenType.ID "x"
        = scanTable [(TokenType.ID, "x")]
          ++ [("x", (scanTable [(TokenType.ID, "x")]).length + 1)]) ∧
    (LexemeTable.hasLexeme (scanTable [(TokenType.ID, "x")]) "x" = true →
      addToSymbolTable (scanTable [(TokenType.ID, "x")]) TokenType.ID "x"
        = scanTable [(TokenType.ID, "x")]) :=
  C6_lexeme_table [(TokenType.ID, "x")] TokenType.ID "x" (Or.inl rfl)

/-! ## C5: semantic errors suppress output.txt -/

theorem anyError_foldl_log (calls : List (Nat × String))
    (lg : CodeGenErrorLogger) (h : lg.anyError = true) :
    (calls.foldl (fun lg c => lg.log c.1 c.2) lg).anyError = true := by
  induction calls generalizing lg with
  | nil => exact h
  | cons c rest ih => exact ih _ rfl

/-- C5: output.txt is emitted exactly when no semantic error was logged
during the session: the logger starts clear, every log call sets the
any_error flag, a set flag makes the main block skip the output.txt
write, and over a whole session the write happens iff the list of log
calls is empty. -/
theorem C5_output_suppression (calls : List (Nat × String))
    (lg : CodeGenErrorLogger) (lineno : Nat) (message : String) :
    (writesOutput (applyLogs calls) = true ↔ calls = []) ∧
    ((lg.log lineno message).anyError = true) ∧
    (writesOutput (lg.log lineno message) = false) ∧
    (writesOutput {} = true) := by
  refine ⟨⟨?_, ?_⟩, rfl, rfl, rfl⟩
  · intro h
    cases calls with
    | nil => rfl
    | cons c rest =>
        exfalso
        have : (applyLogs (c :: rest)).anyError = true := by
          unfold applyLogs
          exact anyError_foldl_log rest _ rfl
        simp [writesOutput, this] at h
  · intro h
    subst h
    rfl

/-! ## C9: nullable FIRST test falls back to FOLLOW -/

/-- C9: the FIRST-membership test of a non-terminal transition succeeds
when the lookahead matches a FIRST member, and also when FIRST contains
the epsilon marker and the lookahead is in the child's FOLLOW set; under
the latter conditions a non-terminal transition is entered by the
selection loop. -/
theorem C9_in_first_epsilon (sets : PDfaSets) (token : Token)
    (parentFollow : List SetEntry) (tgt : Nat) (name : String)
    (h1 : hasEpsilon sets.first = true) (h2 : inFollow sets token = true) :
    (∀ (d : PDfaSets) (t : Token),
      inFirst d t = (inSet d.first t || (hasEpsilon d.first && inFollow d t))) ∧
    inFirst sets token = true ∧
    transitionSelect parentFollow [PTransition.nonTerminal tgt sets name] token
      = some (SelectOutcome.enterNonTerminal tgt name) := by
  have hchar : ∀ (d : PDfaSets) (t : Token),
      inFirst d t = (inSet d.first t || (hasEpsilon d.first && inFollow d t)) := by
    intro d t
    unfold inFirst
    cases hm : inSet d.first t <;> cases he : hasEpsilon d.first <;> simp [hm, he]
  have hfirst : inFirst sets token = true := by
    rw [hchar, h1, h2]
    simp
  refine ⟨hchar, hfirst, ?_⟩
  unfold transitionSelect selectLoop
  simp [hfirst]

/-- C9 witness: a nullable child automaton entered on a token of its FOLLOW
set. -/
theorem C9_in_first_epsilon_witness :
    (∀ (d : PDfaSets) (t : Token),
      inFirst d t = (inSet d.first t || (hasEpsilon d.first && inFollow d t))) ∧
    inFirst { first := [SetEntry.epsilonMatchable],
              follow := [SetEntry.matchable
                { tokenType := TokenType.SYMBOL, lexemePattern := fun _ => true }] }
      { type := TokenType.SYMBOL, lexeme := ")", lineno := 1 } = true ∧
    transitionSelect []
      [PTransition.nonTerminal 4
        { first := [SetEntry.epsilonMatchable],
          follow := [SetEntry.matchable
            { tokenType := TokenType.SYMBOL, lexemePattern := fun _ => true }] }
        "Param-list"]
      { type := TokenType.SYMBOL, lexeme := ")", lineno := 1 }
      = some (SelectOutcome.enterNonTerminal 4 "Param-list") :=
  C9_in_first_epsilon _ _ [] 4 "Param-list" rfl rfl

/-! ## C7: missing-terminal syntax error and recovery -/

theorem selectLoop_none (trs : List PTransition) (token : Token)
    (hnomatch : ∀ tgt tt v, PTransition.terminal tgt tt v ∈ trs →
        terminalMatches tt v token = false)
    (hshape : trs.all PTransition.isTerminalOrEpsilon = true) :
    selectLoop trs token = none := by
  induction trs with
  | nil => rfl
  | cons t rest ih =>
    have hrest : rest.all PTransition.isTerminalOrEpsilon = true := by
      rw [List.all_cons] at hshape
      exact (Bool.and_eq_true_iff.mp hshape).2
    cases t with
    | terminal tgt tt v =>
        have hm := hnomatch tgt tt v (List.mem_cons_self _ _)
        rw [selectLoop, hm]
        exact ih (fun tgt tt v hmem => hnomatch _ _ _ (List.mem_cons_of_mem _ hmem))
          hrest
    | nonTerminal tgt sets name =>
        rw [List.all_cons] at hshape
        simp [PTransition.isTerminalOrEpsilon] at hshape
    | epsilon tgt =>
        rw [selectLoop]
        exact ih (fun tgt tt v hmem => hnomatch _ _ _ (List.mem_cons_of_mem _ hmem))
          hrest

/-- C7: at a state whose transitions are only terminal and epsilon
transitions, when no terminal matches the lookahead and the epsilon
fallback fails the FOLLOW test, the transition routine reports a missing
error naming the first (terminal) transition's expected lexeme, or its
token kind's enum value when the lexeme is unconstrained, and the
recovery handler resumes at that first transition's target with the same
lookahead token, consuming nothing. -/
theorem C7_missing_terminal (parentFollow : List SetEntry)
    (tgt0 : Nat) (tt0 : TokenType) (v0 : Option String)
    (rest : List PTransition) (token : Token)
    (hshape : rest.all PTransition.isTerminalOrEpsilon = true)
    (hnomatch : ∀ tgt tt v,
        PTransition.terminal tgt tt v ∈ PTransition.terminal tgt0 tt0 v0 :: rest →
        terminalMatches tt v token = false)
    (hfollow : inSet parentFollow token = false) :
    transitionSelect parentFollow (PTransition.terminal tgt0 tt0 v0 :: rest) token
      = some (SelectOutcome.missingTerminal (pyOr v0 (toString tt0.value))) ∧
    recoverMissingTerminal (PTransition.terminal tgt0 tt0 v0 :: rest) token
      = some (tgt0, token) := by
  have hsl : selectLoop (PTransition.terminal tgt0 tt0 v0 :: rest) token = none := by
    refine selectLoop_none _ _ hnomatch ?_
    rw [List.all_cons, hshape]
    rfl
  have herr : errorBranch (PTransition.terminal tgt0 tt0 v0 :: rest) token
      = some (SelectOutcome.missingTerminal (pyOr v0 (toString tt0.value))) := by
    have hall : (PTransition.terminal tgt0 tt0 v0 :: rest).all
        PTransition.isTerminalOrEpsilon = true := by
      rw [List.all_cons, hshape]
      rfl
    unfold errorBranch
    simp [hall]
  refine ⟨?_, rfl⟩
  unfold transitionSelect
  rw [hsl]
  split
  · next r hf => cases hf
  · split
    · next tgt hf =>
        rw [hfollow]
        simpa using herr
    · exact herr

/-- C7 witness: a state expecting a closing parenthesis confronted with an
identifier. -/
theorem C7_missing_terminal_witness :
    transitionSelect []
      [PTransition.terminal 5 TokenType.SYMBOL (some ")")]
      { type := TokenType.ID, lexeme := "x", lineno := 3 }
      = some (SelectOutcome.missingTerminal
          (pyOr (some ")") (toString (TokenType.value TokenType.SYMBOL)))) ∧
    recoverMissingTerminal
      [PTransition.terminal 5 TokenType.SYMBOL (some ")")]
      { type := TokenType.ID, lexeme := "x", lineno := 3 }
      = some (5, { type := TokenType.ID, lexeme := "x", lineno := 3 }) :=
  C7_missing_terminal [] 5 TokenType.SYMBOL (some ")") []
    { type := TokenType.ID, lexeme := "x", lineno := 3 }
    rfl
    (by
      intro tgt tt v hmem
      rcases List.mem_singleton.mp hmem with h
      cases h
      rfl)
    rfl

/-! ## C8: op_exec type checking and emission -/

/-- A semantic stack holding an array-typed left operand, a plus operator
and an int right operand, as left by pid on an array name. -/
def c8state : CGState :=
  { ss := [{ value := SSItem.val (Value.direct 4 IdType.Int), description := "pid x" },
           { value := SSItem.operation Operation.Add, description := "op_push +" },
           { value := SSItem.val (Value.direct 0 IdType.Array), description := "pid a" }] }

/-- C8 counterexample: with an array-typed operand, op_exec logs the
message naming the array kind, not the literal void text the claim
states. -/
theorem C8_counterexample :
    (opExec { type := TokenType.SYMBOL, lexeme := "+", lineno := 7 } c8state).map
        CGState.errors
      = some [(7, "Type mismatch in operands, Got array instead of int.")] ∧
    ¬ ("Type mismatch in operands, Got array instead of int."
        = "Type mismatch in operands, Got void instead of int.") := by
  exact ⟨rfl, by decide⟩

set_option maxHeartbeats 2000000 in
/-- C8 (amended): op_exec pops the right operand, then the operator, then
the left operand; for each operand whose kind is neither int nor
NotSpecified it logs, in operand order, the message naming that
operand's own kind (Type mismatch in operands, Got KIND instead of
int.); and it always emits the operation into a fresh int temporary and
pushes that temporary, whether or not an error was logged. -/
theorem C8_op_exec_amended (s : CGState) (token : Token) (arg1v arg2v : Value)
    (op : Operation) (d1 dop d2 : String) (rest : List StackEntry)
    (hss : s.ss = { value := SSItem.val arg2v, description := d2 }
        :: { value := SSItem.operation op, description := dop }
        :: { value := SSItem.val arg1v, description := d1 } :: rest) :
    opExec token s = some { s with
      ss := { value := SSItem.val (Value.direct s.tempAddress IdType.Int),
              description := "op_exec " ++ op.pyStr } :: rest,
      tempAddress := s.tempAddress + wordSize,
      pb := s.pb.appendInstr
          { op := op, arg1 := arg1v, arg2 := arg2v,
            arg3 := Value.direct s.tempAddress IdType.Int },
      errors := s.errors ++ ([arg1v, arg2v].filter (fun a =>
          decide (¬ (a.type = IdType.Int ∨ a.type = IdType.NotSpecified)))).map
        (fun a => (token.lineno,
          "Type mismatch in operands, Got " ++ a.type.value ++ " instead of int.")),
      anyError := s.anyError || ([arg1v, arg2v].any (fun a =>
          decide (¬ (a.type = IdType.Int ∨ a.type = IdType.NotSpecified)))) } := by
  cases harg1 : arg1v.type <;> cases harg2 : arg2v.type <;>
    simp [opExec, hss, ssPop, SSItem.asValue, SSItem.asOperation,
      CGState.gettemp, CGState.emit, ssPush, CGState.logError, harg1, harg2,
      IdType.value]

/-- C8 witness: the amended behavior on the concrete array-plus-int
state. -/
theorem C8_op_exec_amended_witness :
    opExec { type := TokenType.SYMBOL, lexeme := "+", lineno := 7 } c8state
      = some { c8state with
      ss := [{ value := SSItem.val (Value.direct 1000 IdType.Int),
               description := "op_exec " ++ Operation.Add.pyStr }],
      tempAddress := 1000 + wordSize,
      pb := ProgramBlock.appendInstr {}
          { op := Operation.Add, arg1 := Value.direct 0 IdType.Array,
            arg2 := Value.direct 4 IdType.Int,
            arg3 := Value.direct 1000 IdType.Int },
      errors := [(7, "Type mismatch in operands, Got array instead of int.")],
      anyError := true } := by
  have h := C8_op_exec_amended c8state
    { type := TokenType.SYMBOL, lexeme := "+", lineno := 7 }
    (Value.direct 0 IdType.Array) (Value.direct 4 IdType.Int) Operation.Add
    "pid a" "op_push +" "pid x" [] rfl
  simpa using h

/-! ## C3: program block counter -/

/-- A session state about to declare a second function: a previous function
has been declared (set_exec), the name g has just been zero-initialized,
and the block holds three instructions. -/
def c3state : CGState :=
  { pb := { instructions :=
      [{ op := Operation.Assign, arg1 := Value.immediate 2000,
         arg2 := Value.direct 0 },
       { op := Operation.Jp, arg1 := Value.indirect 8 },
       { op := Operation.Assign, arg1 := Value.immediate 0,
         arg2 := Value.direct 16 }] },
    setExec := true,
    lastId := some { type := TokenType.ID, lexeme := "g", lineno := 2 },
    symtab := { declaring := false,
                scopes := [{ locals := [{ lexeme := "g", address := some 16,
                                          type := IdType.Int }] }] } }

/-- C3 counterexample: declare_function on a state with a previously
declared function rolls the counter back from 3 to 2, truncating the
block, so the counter does decrease during a session. -/
theorem C3_counterexample :
    (declareFunction c3state).map (fun s1 => s1.pb.i) = some 2 ∧
    2 < c3state.pb.i := by
  exact ⟨by decide, by decide⟩

/-- C3 (amended): the counter i always equals the number of instructions in
the block, and setting it to a value at or beyond the current count
extends the block with EMPTY instructions up to that index; but i is not
monotone: setting it below the current count truncates the block, which
declare_function does (decrementing i by one) whenever a function was
already declared. -/
theorem C3_pb_counter (pb : ProgramBlock) (v w : Nat) (inst : Instruction)
    (hv : pb.i ≤ v) (hw : w < pb.i) :
    pb.i = pb.instructions.length ∧
    (pb.appendInstr inst).i = pb.i + 1 ∧
    pb.setI v = { instructions := pb.instructions
        ++ List.replicate (v - pb.i) Instruction.emptyInstr } ∧
    (pb.setI v).i = v ∧
    pb.setI w = { instructions := pb.instructions.take w } ∧
    (pb.setI w).i = w ∧
    (declareFunction c3state).map (fun s1 => s1.pb.i) = some (c3state.pb.i - 1) := by
  have hv2 : pb.instructions.length ≤ v := hv
  have hw2 : w < pb.instructions.length := hw
  refine ⟨rfl, ?_, ?_, ?_, ?_, ?_, by decide⟩
  · simp [ProgramBlock.appendInstr, ProgramBlock.i]
  · unfold ProgramBlock.setI
    rw [if_neg (by simp only [ProgramBlock.i]; omega)]
  · unfold ProgramBlock.setI
    rw [if_neg (by simp only [ProgramBlock.i]; omega)]
    simp [ProgramBlock.i]
    omega
  · unfold ProgramBlock.setI
    rw [if_pos (by simp only [ProgramBlock.i]; omega)]
  · unfold ProgramBlock.setI
    rw [if_pos (by simp only [ProgramBlock.i]; omega)]
    simp [ProgramBlock.i]
    omega

/-- C3 witness: the amended statement at a one-instruction block. -/
theorem C3_pb_counter_witness :
    ProgramBlock.i { instructions := [Instruction.emptyInstr] }
      = (List.length [Instruction.emptyInstr]) ∧
    (ProgramBlock.appendInstr { instructions := [Instruction.emptyInstr] }
      Instruction.emptyInstr).i
      = ProgramBlock.i { instructions := [Instruction.emptyInstr] } + 1 ∧
    ProgramBlock.setI { instructions := [Instruction.emptyInstr] } 3
      = { instructions := [Instruction.emptyInstr]
          ++ List.replicate
            (3 - ProgramBlock.i { instructions := [Instruction.emptyInstr] })
            Instruction.emptyInstr } ∧
    (ProgramBlock.setI { instructions := [Instruction.emptyInstr] } 3).i = 3 ∧
    ProgramBlock.setI { instructions := [Instruction.emptyInstr] } 0
      = { instructions := List.take 0 [Instruction.emptyInstr] } ∧
    (ProgramBlock.setI { instructions := [Instruction.emptyInstr] } 0).i = 0 ∧
    (declareFunction c3state).map (fun s1 => s1.pb.i) = some (c3state.pb.i - 1) :=
  C3_pb_counter { instructions := [Instruction.emptyInstr] } 3 0
    Instruction.emptyInstr (by decide) (by decide)

/-! ## C4: argument push order in function_call -/

/-- The instruction pair ActivationsStack.push emits for one pushed value,
with the given sp register address. -/
def pushPair (sp : Int) (v : Value) : List Instruction :=
  [{ op := .Assign, arg1 := v, arg2 := Value.indirect sp },
   { op := .Add, arg1 := Value.direct sp, arg2 := wordSizeVal,
     arg3 := Value.direct sp }]

theorem pushArgsLoop_spec (es : List StackEntry) (vs : List Value)
    (rest : List StackEntry) (acc : List IdType) (s : CGState)
    (hss : s.ss = es ++ rest)
    (hvs : es.map StackEntry.value = vs.map SSItem.val) :
    pushArgsLoop es.length acc s
      = some (acc ++ vs.map Value.type,
        { s with ss := rest,
                 pb := { instructions := s.pb.instructions
                   ++ vs.flatMap (pushPair s.rf.sp) } }) := by
  induction es generalizing vs acc s with
  | nil =>
      cases vs with
      | nil =>
          have hrest : rest = s.ss := by rw [hss]; rfl
          subst hrest
          simp [pushArgsLoop]
      | cons v vs => simp at hvs
  | cons e es ih =>
      cases vs with
      | nil => simp at hvs
      | cons v vs =>
          have hev : e.value = SSItem.val v := by
            have := congrArg List.head? hvs
            simpa using this
          have htl : es.map StackEntry.value = vs.map SSItem.val := by
            have := congrArg List.tail hvs
            simpa using this
          show pushArgsLoop (es.length + 1) acc s = _
          rw [pushArgsLoop]
          have hpop : ssPop s = some (e.value, { s with ss := es ++ rest }) := by
            simp [ssPop, hss]
          rw [hpop]
          simp only [Option.bind_eq_bind, Option.some_bind, hev, SSItem.asValue]
          rw [ih vs (acc ++ [v.type]) (asPush v { s with ss := es ++ rest })
            (by simp [asPush, CGState.emit]) htl]
          simp [asPush, CGState.emit, ProgramBlock.appendInstr, pushPair]

/-- C4 counterexample state: two int arguments on the semantic stack, the
first source argument (value 1) below the second (value 2), and an
arg_pass depth of 0. -/
def c4state : CGState :=
  { ss := [{ value := SSItem.val (Value.immediate 2 IdType.Int), description := "pnum" },
           { value := SSItem.val (Value.immediate 1 IdType.Int), description := "pnum" }],
    argPointer := [0] }

/-- C4 counterexample: the first push instruction emitted by push_args
stores the second (last) source argument, not the first, so arguments
are not pushed in left-to-right source order. -/
theorem C4_counterexample :
    (pushArgs c4state).map (fun p => p.2.pb.instructions.head?)
      = some (some
          { op := Operation.Assign, arg1 := Value.immediate 2 IdType.Int,
            arg2 := Value.indirect 0 }) ∧
    ¬ (Value.immediate 2 IdType.Int = Value.immediate 1 IdType.Int) := by
  exact ⟨by decide, by decide⟩

/-- C4 (amended): push_args pops the semantic stack down to the depth
recorded by the matching arg_pass and pushes each popped argument on the
runtime stack, so the arguments are pushed right-to-left (the last
source argument first, the first argument last, immediately before the
jump to the callee); the recorded kinds list is reversed at the end into
left-to-right source order for the signature check. -/
theorem C4_push_args_amended (s : CGState) (es rest : List StackEntry)
    (vs : List Value) (d : Nat) (ds : List Nat)
    (hss : s.ss = es ++ rest)
    (hvs : es.map StackEntry.value = vs.map SSItem.val)
    (hd : s.argPointer = d :: ds)
    (hdepth : rest.length = d) :
    pushArgs s = some ((vs.map Value.type).reverse,
      { s with ss := rest, argPointer := ds,
               pb := { instructions := s.pb.instructions
                 ++ vs.flatMap (pushPair s.rf.sp) } }) := by
  unfold pushArgs
  rw [hd]
  dsimp only
  have hn : s.ss.length - d = es.length := by
    rw [hss, List.length_append, ← hdepth]
    omega
  rw [hn]
  rw [pushArgsLoop_spec es vs rest [] { s with argPointer := ds }
    (by simpa using hss) hvs]
  simp

/-- C4 witness: the amended statement on the two-argument state. -/
theorem C4_push_args_amended_witness :
    pushArgs c4state = some
      (([Value.immediate 2 IdType.Int, Value.immediate 1 IdType.Int].map
          Value.type).reverse,
        { c4state with
          ss := [], argPointer := [],
          pb :=
            { instructions := ([] : List Instruction)
                ++ [Value.immediate 2 IdType.Int,
                    Value.immediate 1 IdType.Int].flatMap (pushPair 0) } }) :=
  C4_push_args_amended c4state
    [{ value := SSItem.val (Value.immediate 2 IdType.Int), description := "pnum" },
     { value := SSItem.val (Value.immediate 1 IdType.Int), description := "pnum" }]
    [] [Value.immediate 2 IdType.Int, Value.immediate 1 IdType.Int] 0 []
    rfl rfl rfl rfl

/-! ## C10: scope_end defers layer restoration to the next staging action -/


@[simp] theorem getLayer_setLayer (s : CGState) (ty : ScopeType) (l : Layer) :
    (s.setLayer ty l).getLayer ty = l := by
  cases ty <;> rfl

@[simp] theorem setLayer_pb (s : CGState) (ty : ScopeType) (l : Layer) :
    (s.setLayer ty l).pb = s.pb := by
  cases ty <;> rfl

@[simp] theorem setLayer_ss (s : CGState) (ty : ScopeType) (l : Layer) :
    (s.setLayer ty l).ss = s.ss := by
  cases ty <;> rfl

@[simp] theorem setLayer_dataAddress (s : CGState) (ty : ScopeType) (l : Layer) :
    (s.setLayer ty l).dataAddress = s.dataAddress := by
  cases ty <;> rfl

@[simp] theorem setLayer_tempAddress (s : CGState) (ty : ScopeType) (l : Layer) :
    (s.setLayer ty l).tempAddress = s.tempAddress := by
  cases ty <;> rfl

@[simp] theorem setLayer_scopeTypes (s : CGState) (ty : ScopeType) (l : Layer) :
    (s.setLayer ty l).scopeTypes = s.scopeTypes := by
  cases ty <;> rfl

@[simp] theorem setLayer_scopeDelete (s : CGState) (ty : ScopeType) (l : Layer) :
    (s.setLayer ty l).scopeDelete = s.scopeDelete := by
  cases ty <;> rfl

@[simp] theorem setLayer_rf (s : CGState) (ty : ScopeType) (l : Layer) :
    (s.setLayer ty l).rf = s.rf := by
  cases ty <;> rfl

@[simp] theorem setLayer_symtab (s : CGState) (ty : ScopeType) (l : Layer) :
    (s.setLayer ty l).symtab = s.symtab := by
  cases ty <;> rfl

@[simp] theorem setLayer_errors (s : CGState) (ty : ScopeType) (l : Layer) :
    (s.setLayer ty l).errors = s.errors := by
  cases ty <;> rfl

@[simp] theorem asDeleteScope_getLayer (x : CGState) (ty : ScopeType) :
    (asDeleteScope x).getLayer ty = x.getLayer ty := by
  cases ty <;> rfl

@[simp] theorem asDeleteScope_scopeTypes (x : CGState) :
    (asDeleteScope x).scopeTypes = x.scopeTypes := rfl

@[simp] theorem asDeleteScope_scopeDelete (x : CGState) :
    (asDeleteScope x).scopeDelete = x.scopeDelete := rfl

@[simp] theorem asDeleteScope_dataAddress (x : CGState) :
    (asDeleteScope x).dataAddress = x.dataAddress := rfl

@[simp] theorem asDeleteScope_tempAddress (x : CGState) :
    (asDeleteScope x).tempAddress = x.tempAddress := rfl

@[simp] theorem asDeleteScope_pb_instructions (x : CGState) :
    (asDeleteScope x).pb.instructions = x.pb.instructions ++
      [{ op := Operation.Assign, arg1 := Value.direct x.rf.fp,
         arg2 := Value.direct x.rf.sp },
       { op := Operation.Sub, arg1 := Value.direct x.rf.sp, arg2 := wordSizeVal,
         arg3 := Value.direct x.rf.sp },
       { op := Operation.Assign, arg1 := Value.indirect x.rf.sp,
         arg2 := Value.direct x.rf.fp }] := by
  simp [asDeleteScope, asPop, CGState.emit, ProgramBlock.appendInstr]

theorem getLayer_scopeDelete (u : CGState) (ty : ScopeType) (b : Bool) :
    ({ u with scopeDelete := b } : CGState).getLayer ty = u.getLayer ty := by
  cases ty <;> rfl

theorem layerDeleteScope_inv (ty : ScopeType) (u s3 : CGState)
    (h : layerDeleteScope ty u = some s3) :
    ∃ d ds t ts jl pb2,
      (u.getLayer ty).dataStack = d :: ds ∧
      (u.getLayer ty).tempStack = t :: ts ∧
      jailFlush (u.getLayer ty).jail u.pb = some (jl, pb2) ∧
      s3 = ({ u with dataAddress := d, tempAddress := t, pb := pb2 }.setLayer ty
        { dataStack := ds, tempStack := ts, jail := jl }) := by
  obtain ⟨l, hl⟩ : ∃ l, u.getLayer ty = l := ⟨_, rfl⟩
  unfold layerDeleteScope at h
  rw [hl] at h ⊢
  obtain ⟨lds, lts, lj⟩ := l
  cases lds with
  | nil => simp at h
  | cons d ds =>
    cases lts with
    | nil => simp at h
    | cons t ts =>
        dsimp only at h ⊢
        cases hfl : jailFlush lj u.pb with
        | none => rw [hfl] at h; cases h
        | some p =>
            rw [hfl] at h
            obtain ⟨jl, pb2⟩ := p
            refine ⟨d, ds, t, ts, jl, pb2, rfl, rfl, rfl, ?_⟩
            simpa using h.symm

/-- C10: scope_end pops the symbol-table scope immediately but leaves the
bump pointers, every layer, and the program block untouched, only
setting the pending-delete flag; the next scope-type staging action run
with the flag set consumes it instead of staging (scopeTypes is
unchanged), restores data_address and temp_address from the layer's
snapshots, patches the remaining jail entries of that layer, and for
Function scopes additionally emits the activation-frame pop. -/
theorem C10_scope_end_deferred (s u : CGState) (sc : Scope) (scs : List Scope)
    (ty : ScopeType) (s2 : CGState)
    (hscopes : s.symtab.scopes = sc :: scs)
    (hu : u.scopeDelete = true)
    (hpush : pushType ty u = some s2) :
    scopeEnd s = some { s with
      symtab := { s.symtab with scopes := scs }, scopeDelete := true } ∧
    s2.scopeTypes = u.scopeTypes ∧
    s2.scopeDelete = false ∧
    (∃ ds ts jl pb2,
      (u.getLayer ty).dataStack = s2.dataAddress :: ds ∧
      (u.getLayer ty).tempStack = s2.tempAddress :: ts ∧
      jailFlush (u.getLayer ty).jail u.pb = some (jl, pb2) ∧
      s2.getLayer ty = { dataStack := ds, tempStack := ts, jail := jl } ∧
      (ty = ScopeType.Function → s2.pb.instructions = pb2.instructions ++
        [{ op := Operation.Assign, arg1 := Value.direct u.rf.fp,
           arg2 := Value.direct u.rf.sp },
         { op := Operation.Sub, arg1 := Value.direct u.rf.sp, arg2 := wordSizeVal,
           arg3 := Value.direct u.rf.sp },
         { op := Operation.Assign, arg1 := Value.indirect u.rf.sp,
           arg2 := Value.direct u.rf.fp }]) ∧
      (¬ ty = ScopeType.Function → s2.pb = pb2)) := by
  refine ⟨by simp [scopeEnd, SymbolTable.deleteScope, hscopes], ?_⟩
  unfold pushType at hpush
  rw [hu] at hpush
  simp only [if_true] at hpush
  obtain ⟨s3, h3, h2⟩ := Option.bind_eq_some.mp hpush
  obtain ⟨d, ds, t, ts, jl, pb2, hds, hts, hfl, hs3⟩ := layerDeleteScope_inv ty _ _ h3
  rw [getLayer_scopeDelete] at hds hts hfl
  have hpb : ({ u with scopeDelete := false } : CGState).pb = u.pb := rfl
  rw [hpb] at hfl
  have hs2 : s2 = if ty = ScopeType.Function then asDeleteScope s3 else s3 :=
    (Option.some.inj h2).symm
  by_cases hF : ty = ScopeType.Function
  · subst hF
    have hs4 : s2 = asDeleteScope s3 := by simpa using hs2
    refine ⟨?_, ?_, ds, ts, jl, pb2, ?_, ?_, hfl, ?_, fun _ => ?_,
      fun hne => absurd rfl hne⟩
    · rw [hs4, hs3]; simp
    · rw [hs4, hs3]; simp
    · rw [hs4, hs3]; simpa using hds
    · rw [hs4, hs3]; simpa using hts
    · rw [hs4, hs3]; simp
    · rw [hs4, hs3]; simp
  · have hs4 : s2 = s3 := by simpa [hF] using hs2
    refine ⟨?_, ?_, ds, ts, jl, pb2, ?_, ?_, hfl, ?_, fun h => absurd h hF,
      fun _ => ?_⟩
    · rw [hs4, hs3]; simp
    · rw [hs4, hs3]; simp
    · rw [hs4, hs3]; simpa using hds
    · rw [hs4, hs3]; simpa using hts
    · rw [hs4, hs3]; simp
    · rw [hs4, hs3]; simp

/-- A state with the pending-delete flag set and an open Container layer. -/
def c10u : CGState :=
  { scopeDelete := true,
    layerContainer := { dataStack := [16], tempStack := [1000],
                        jail := [JailEntry.bar] } }

/-- The state the next staging action produces from c10u. -/
def c10s2 : CGState := (pushType ScopeType.Container c10u).getD c10u

/-- C10 witness: the deferred deletion on a concrete Container layer. -/
theorem C10_scope_end_deferred_witness :
    scopeEnd {} = some { ({} : CGState) with
      symtab := { ({} : CGState).symtab with scopes := [] },
      scopeDelete := true } ∧
    c10s2.scopeTypes = c10u.scopeTypes ∧
    c10s2.scopeDelete = false ∧
    (∃ ds ts jl pb2,
      (c10u.getLayer ScopeType.Container).dataStack = c10s2.dataAddress :: ds ∧
      (c10u.getLayer ScopeType.Container).tempStack = c10s2.tempAddress :: ts ∧
      jailFlush (c10u.getLayer ScopeType.Container).jail c10u.pb
        = some (jl, pb2) ∧
      c10s2.getLayer ScopeType.Container
        = { dataStack := ds, tempStack := ts, jail := jl } ∧
      (ScopeType.Container = ScopeType.Function →
        c10s2.pb.instructions = pb2.instructions ++
          [{ op := Operation.Assign, arg1 := Value.direct c10u.rf.fp,
             arg2 := Value.direct c10u.rf.sp },
           { op := Operation.Sub, arg1 := Value.direct c10u.rf.sp,
             arg2 := wordSizeVal, arg3 := Value.direct c10u.rf.sp },
           { op := Operation.Assign, arg1 := Value.indirect c10u.rf.sp,
             arg2 := Value.direct c10u.rf.fp }]) ∧
      (¬ ScopeType.Container = ScopeType.Function → c10s2.pb = pb2)) :=
  C10_scope_end_deferred {} c10u {} [] ScopeType.Container c10s2 rfl rfl rfl

/-! ## C1: break inside repeat patches to the loop exit -/

/-- The unconditional jump instruction a prison patch writes. -/
def jpTo (n : Int) : Instruction :=
  { op := Operation.Jp, arg1 := Value.direct n }

theorem jailFlush_spec (J : List Nat) (jrest : List JailEntry) (pb : ProgramBlock)
    (hJ : ∀ j ∈ J, j < pb.instructions.length) :
    ∃ pb2, jailFlush (J.map JailEntry.pc ++ JailEntry.bar :: jrest) pb
        = some (jrest, pb2) ∧
      pb2.instructions.length = pb.instructions.length ∧
      (∀ k, k ∈ J → pb2.instructions[k]?
        = some (jpTo (pb.instructions.length : Int))) ∧
      (∀ k, k ∉ J → pb2.instructions[k]? = pb.instructions[k]?) := by
  induction J generalizing pb with
  | nil =>
      refine ⟨pb, rfl, rfl, ?_, fun k _ => rfl⟩
      intro k hk
      simp at hk
  | cons j J ih =>
      have hj : j < pb.instructions.length := hJ j (List.mem_cons_self _ _)
      have hset : pb.setInstr j { op := .Jp, arg1 := Value.direct (pb.i : Int) }
          = some { instructions := pb.instructions.set j (jpTo (pb.i : Int)) } := by
        unfold ProgramBlock.setInstr
        rw [if_pos hj]
        rfl
      have hlen1 : (pb.instructions.set j (jpTo (pb.i : Int))).length
          = pb.instructions.length := by
        simp
      obtain ⟨pb2, hfl, hlen, hin, hout⟩ := ih
        { instructions := pb.instructions.set j (jpTo (pb.i : Int)) }
        (by
          intro k hk
          simpa [hlen1] using hJ k (List.mem_cons_of_mem _ hk))
      refine ⟨pb2, ?_, ?_, ?_, ?_⟩
      · show jailFlush (JailEntry.pc j :: (J.map JailEntry.pc
            ++ JailEntry.bar :: jrest)) pb = some (jrest, pb2)
        rw [jailFlush, hset]
        simp [hfl]
      · rw [hlen]
        simp [hlen1]
      · intro k hk
        rcases List.mem_cons.mp hk with hkj | hkJ
        · subst hkj
          by_cases hkJ2 : k ∈ J
          · rw [hin k hkJ2]
            simp [ProgramBlock.i, hlen1]
          · rw [hout k hkJ2]
            show (pb.instructions.set k (jpTo (pb.i : Int)))[k]?
              = some (jpTo (pb.instructions.length : Int))
            rw [List.getElem?_set_self' ]
            simp [ProgramBlock.i, List.getElem?_eq_getElem hj]
        · rw [hin k hkJ]
          simp [hlen1]
      · intro k hk
        have hkj : j ≠ k := fun he => hk (he ▸ List.mem_cons_self _ _)
        have hkJ : k ∉ J := fun hm => hk (List.mem_cons_of_mem _ hm)
        rw [hout k hkJ]
        show (pb.instructions.set j (jpTo (pb.i : Int)))[k]? = pb.instructions[k]?
        rw [List.getElem?_set_ne hkj]

/-- The action sequence the grammar fires for a break statement
(src/compiler.py expression_stmt: CheckInContainer on the break keyword,
then ContainerScope and Prison on the semicolon). -/
def breakStmtActions (token : Token) (s : CGState) : Option CGState :=
  containerScope (checkInContainer token s) >>= prison

/-- The action sequence on the closing parenthesis of repeat ... until (..)
(src/compiler.py iteration_stmt: JpfRepeat, ScopeEnd, ContainerScope). -/
def repeatCloseActions (s : CGState) : Option CGState :=
  jpfRepeat s >>= scopeEnd >>= containerScope

/-- The action sequence on endif after an else arm (src/compiler.py
else_stmt: ScopeEnd, SimpleScope, TemporaryScope, PrisonBreak). -/
def endifActions (s : CGState) : Option CGState :=
  scopeEnd s >>= simpleScope >>= temporaryScope >>= prisonBreak

theorem breakStmt_effect (token : Token) (s : CGState)
    (hdel : s.scopeDelete = false)
    (hinside : layerAreWeInside ScopeType.Container s = true) :
    breakStmtActions token s = some (layerPrison ScopeType.Container s) ∧
    (layerPrison ScopeType.Container s).layerContainer.jail
      = JailEntry.pc s.pb.i :: s.layerContainer.jail ∧
    (layerPrison ScopeType.Container s).layerTemporary = s.layerTemporary ∧
    (layerPrison ScopeType.Container s).layerSimple = s.layerSimple ∧
    (layerPrison ScopeType.Container s).layerFunction = s.layerFunction ∧
    (layerPrison ScopeType.Container s).pb.instructions
      = s.pb.instructions ++ [Instruction.emptyInstr] ∧
    (layerPrison ScopeType.Container s).scopeTypes = s.scopeTypes ∧
    (layerPrison ScopeType.Container s).errors = s.errors := by
  refine ⟨?_, rfl, rfl, rfl, rfl, ?_, rfl, rfl⟩
  · have hc : checkInContainer token s = s := by
      unfold checkInContainer
      rw [hinside]
      rfl
    have hcs : containerScope s
        = some { s with scopeTypes := ScopeType.Container :: s.scopeTypes } := by
      unfold containerScope pushType
      rw [hdel]
      rfl
    unfold breakStmtActions
    rw [hc, hcs]
    unfold prison smPrison
    rfl
  · show ((CGState.setLayer s ScopeType.Container _).pb.setI
      ((CGState.setLayer s ScopeType.Container _).pb.i + 1)).instructions = _
    unfold ProgramBlock.setI
    rw [if_neg (by omega)]
    simp [ProgramBlock.i]

theorem repeatClose_effect (s : CGState) (cond lab : Value) (dc dl : String)
    (ssRest : List StackEntry) (sc : Scope) (scs : List Scope)
    (d t : Int) (dstk tstk : List Int) (J : List Nat) (jrest : List JailEntry)
    (hdel : s.scopeDelete = false)
    (hss : s.ss
      = { value := SSItem.val cond, description := dc }
        :: { value := SSItem.val lab, description := dl } :: ssRest)
    (hsc : s.symtab.scopes = sc :: scs)
    (hlay : s.layerContainer
      = { dataStack := d :: dstk, tempStack := t :: tstk,
          jail := J.map JailEntry.pc ++ JailEntry.bar :: jrest })
    (hJ : ∀ j ∈ J, j < s.pb.i) :
    ∃ s3, repeatCloseActions s = some s3 ∧
      s3.pb.instructions.length = s.pb.i + 1 ∧
      s3.pb.instructions[s.pb.i]?
        = some { op := Operation.Jpf, arg1 := cond, arg2 := lab } ∧
      (∀ j ∈ J, s3.pb.instructions[j]? = some (jpTo ((s.pb.i + 1 : Nat) : Int))) ∧
      s3.layerContainer
        = { dataStack := dstk, tempStack := tstk, jail := jrest } ∧
      s3.dataAddress = d ∧ s3.tempAddress = t ∧
      s3.layerTemporary = s.layerTemporary ∧ s3.layerSimple = s.layerSimple ∧
      s3.layerFunction = s.layerFunction := by
  set jpfInstr : Instruction :=
    { op := Operation.Jpf, arg1 := cond, arg2 := lab } with hjpf
  set s1 : CGState := { s with ss := ssRest, pb := s.pb.appendInstr jpfInstr }
    with hs1def
  have h1 : jpfRepeat s = some s1 := by
    simp [jpfRepeat, ssPop, hss, SSItem.asValue, CGState.emit, hs1def]
  have hlen1 : s1.pb.instructions.length = s.pb.i + 1 := by
    simp [hs1def, ProgramBlock.appendInstr, ProgramBlock.i]
  set s2 : CGState :=
    { s1 with symtab := { s.symtab with scopes := scs }, scopeDelete := true }
    with hs2def
  have h2 : scopeEnd s1 = some s2 := by
    simp [scopeEnd, SymbolTable.deleteScope, hs1def, hsc, hs2def]
  obtain ⟨pb2, hfl, hlen2, hin, hout⟩ := jailFlush_spec J jrest s1.pb
    (by
      intro j hj
      rw [hlen1]
      exact Nat.lt_succ_of_lt (hJ j hj))
  set u2 : CGState :=
    { s2 with scopeDelete := false, dataAddress := d, tempAddress := t,
              pb := pb2 }
    with hu2def
  set newLayer : Layer :=
    { dataStack := dstk, tempStack := tstk, jail := jrest } with hnl
  set s3 : CGState := u2.setLayer ScopeType.Container newLayer with hs3def
  have hgl : ({ s2 with scopeDelete := false } : CGState).getLayer
      ScopeType.Container
      = { dataStack := d :: dstk, tempStack := t :: tstk,
          jail := J.map JailEntry.pc ++ JailEntry.bar :: jrest } := by
    rw [getLayer_scopeDelete]
    show s.layerContainer = _
    rw [hlay]
  have hs2pb : s2.pb = s1.pb := by
    rw [hs2def]
  have h3 : containerScope s2 = some s3 := by
    unfold containerScope pushType
    rw [show s2.scopeDelete = true from rfl]
    simp only [if_true]
    unfold layerDeleteScope
    rw [hgl]
    dsimp only
    rw [show jailFlush (List.map JailEntry.pc J ++ JailEntry.bar :: jrest)
        (s.pb.appendInstr jpfInstr) = some (jrest, pb2) from hfl]
    rfl
  have hs3pb : s3.pb = pb2 := by
    rw [hs3def]
    simp [hu2def]
  refine ⟨s3, ?_, ?_, ?_, ?_, ?_, ?_, ?_, ?_, ?_, ?_⟩
  · unfold repeatCloseActions
    rw [h1]
    show scopeEnd s1 >>= containerScope = _
    rw [h2]
    show containerScope s2 = _
    exact h3
  · rw [hs3pb, hlen2, hlen1]
  · have hnotJ : s.pb.i ∉ J := fun hmem => Nat.lt_irrefl _ (hJ _ hmem)
    rw [hs3pb, hout _ hnotJ]
    show ((s.pb.instructions ++ [jpfInstr]))[s.pb.i]? = _
    rw [show s.pb.i = s.pb.instructions.length from rfl]
    rw [List.getElem?_concat_length]
  · intro j hj
    rw [hs3pb, hin j hj, hlen1]
  · rw [hs3def]
    rfl
  · rw [hs3def]
    rfl
  · rw [hs3def]
    rfl
  · rw [hs3def]
    rfl
  · rw [hs3def]
    rfl
  · rw [hs3def]
    rfl

theorem endif_effect (s : CGState) (sc : Scope) (scs : List Scope)
    (d t : Int) (dstk tstk : List Int) (jrestS : List JailEntry)
    (jt : Nat) (jtr : List JailEntry)
    (hsc : s.symtab.scopes = sc :: scs)
    (hlayS : s.layerSimple
      = { dataStack := d :: dstk, tempStack := t :: tstk,
          jail := JailEntry.bar :: jrestS })
    (hlayT : s.layerTemporary.jail = JailEntry.pc jt :: jtr)
    (hjt : jt < s.pb.instructions.length) :
    ∃ s4, endifActions s = some s4 ∧
      s4.layerContainer = s.layerContainer ∧
      s4.layerTemporary.jail = jtr ∧
      s4.pb.instructions[jt]? = some (jpTo (s.pb.instructions.length : Int)) ∧
      (∀ k, k ≠ jt → s4.pb.instructions[k]? = s.pb.instructions[k]?) ∧
      s4.scopeTypes = s.scopeTypes := by
  set s1 : CGState :=
    { s with symtab := { s.symtab with scopes := scs }, scopeDelete := true }
    with hs1def
  have h1 : scopeEnd s = some s1 := by
    simp [scopeEnd, SymbolTable.deleteScope, hsc, hs1def]
  have hgl : ({ s1 with scopeDelete := false } : CGState).getLayer
      ScopeType.Simple
      = { dataStack := d :: dstk, tempStack := t :: tstk,
          jail := JailEntry.bar :: jrestS } := by
    rw [getLayer_scopeDelete]
    show s.layerSimple = _
    rw [hlayS]
  set s2 : CGState :=
    ({ s1 with scopeDelete := false, dataAddress := d,
               tempAddress := t } : CGState).setLayer ScopeType.Simple
      { dataStack := dstk, tempStack := tstk, jail := jrestS }
    with hs2def
  have h2 : simpleScope s1 = some s2 := by
    unfold simpleScope pushType
    rw [show s1.scopeDelete = true from rfl]
    simp only [if_true]
    unfold layerDeleteScope
    rw [hgl]
    rfl
  set s3 : CGState := { s2 with scopeTypes := ScopeType.Temporary :: s2.scopeTypes }
    with hs3def
  have h3 : temporaryScope s2 = some s3 := by
    unfold temporaryScope pushType
    rw [show s2.scopeDelete = false from by simp [hs2def]]
    rfl
  have hjail3 : (({ s3 with scopeTypes := s2.scopeTypes } : CGState).getLayer
      ScopeType.Temporary).jail = JailEntry.pc jt :: jtr := hlayT
  have hjt3 : jt < s3.pb.instructions.length := hjt
  set s4 : CGState :=
    ({ s3 with scopeTypes := s2.scopeTypes,
               pb := { instructions :=
                         s.pb.instructions.set jt
                           (jpTo (s.pb.instructions.length : Int)) } } :
      CGState).setLayer ScopeType.Temporary
      { dataStack := s.layerTemporary.dataStack,
        tempStack := s.layerTemporary.tempStack, jail := jtr }
    with hs4def
  have h4 : prisonBreak s3 = some s4 := by
    unfold prisonBreak smPrisonBreak
    rw [show s3.scopeTypes = ScopeType.Temporary :: s2.scopeTypes from rfl]
    show layerPrisonBreak ScopeType.Temporary
      { s3 with scopeTypes := s2.scopeTypes } = some s4
    unfold layerPrisonBreak
    dsimp only
    rw [hjail3]
    dsimp only
    unfold ProgramBlock.setInstr
    rw [if_pos (show jt < s2.pb.instructions.length from hjt)]
    rfl
  refine ⟨s4, ?_, ?_, ?_, ?_, ?_, ?_⟩
  · unfold endifActions
    rw [h1]
    show (simpleScope s1 >>= temporaryScope) >>= prisonBreak = _
    rw [h2]
    show temporaryScope s2 >>= prisonBreak = _
    rw [h3]
    show prisonBreak s3 = _
    exact h4
  · rw [hs4def]
    rfl
  · rw [hs4def]
    rfl
  · rw [hs4def]
    show (s.pb.instructions.set jt (jpTo (s.pb.instructions.length : Int)))[jt]?
      = some (jpTo (s.pb.instructions.length : Int))
    rw [List.getElem?_set_self' ]
    simp [List.getElem?_eq_getElem hjt]
  · intro k hk
    rw [hs4def]
    show (s.pb.instructions.set jt (jpTo (s.pb.instructions.length : Int)))[k]?
      = s.pb.instructions[k]?
    rw [List.getElem?_set_ne (fun he => hk he.symm)]
  · rw [hs4def]
    show s2.scopeTypes = s.scopeTypes
    rw [hs2def]
    rfl

/-- Concrete break-site state for the C1 witness: an open Container scope
(the repeat body) and a pending-delete flag that is clear. -/
def c1sA : CGState :=
  { layerContainer := { dataStack := [16], tempStack := [1000], jail := [] } }

/-- Concrete repeat-close state for the C1 witness: the loop condition and
label on the semantic stack and one jailed break (pc 0) under the bar. -/
def c1rB : CGState :=
  { pb := { instructions := [Instruction.emptyInstr] },
    ss := [{ value := SSItem.val (Value.direct 5), description := "cond" },
           { value := SSItem.val (Value.direct 3), description := "lab" }],
    layerContainer := { dataStack := [16], tempStack := [1000],
                        jail := [JailEntry.pc 0, JailEntry.bar] } }

/-- Concrete endif state for the C1 witness: an open Simple scope and one
jailed if-join slot (pc 0) on the Temporary layer. -/
def c1uC : CGState :=
  { pb := { instructions := [Instruction.emptyInstr] },
    layerSimple := { dataStack := [16], tempStack := [1000],
                     jail := [JailEntry.bar] },
    layerTemporary := { dataStack := [], tempStack := [],
                        jail := [JailEntry.pc 0] } }

/-- C1: a `break` statement fires CheckInContainer, ContainerScope, Prison
(src/compiler.py expression_stmt): inside a repeat loop this reserves one
EMPTY slot and records its pc on the Container layer's top jail, touching
no other layer (part a).  When the loop closes (JpfRepeat, ScopeEnd,
ContainerScope on the until-condition's closing parenthesis), every jail
entry above the bar is patched to `JP` at the loop's exit pc, i.e. the
instruction right after the closing JPF (part b).  The `endif` close of an
`if`/`else` nested in the loop (ScopeEnd, SimpleScope, TemporaryScope,
PrisonBreak) patches only the Temporary layer's own jail top and leaves
the Container layer - and hence the break's entry - untouched, so the
break is patched to the repeat's exit, not the if's join (part c). -/
theorem C1_break_patched_to_loop_exit
    (token : Token) (s : CGState)
    (hdelS : s.scopeDelete = false)
    (hinside : layerAreWeInside ScopeType.Container s = true)
    (r : CGState) (cond lab : Value) (dc dl : String)
    (ssRest : List StackEntry) (sc : Scope) (scs : List Scope)
    (d t : Int) (dstk tstk : List Int) (J : List Nat) (jrest : List JailEntry)
    (hdelR : r.scopeDelete = false)
    (hss : r.ss
      = { value := SSItem.val cond, description := dc }
        :: { value := SSItem.val lab, description := dl } :: ssRest)
    (hsc : r.symtab.scopes = sc :: scs)
    (hlay : r.layerContainer
      = { dataStack := d :: dstk, tempStack := t :: tstk,
          jail := J.map JailEntry.pc ++ JailEntry.bar :: jrest })
    (hJ : ∀ j ∈ J, j < r.pb.i)
    (u : CGState) (usc : Scope) (uscs : List Scope)
    (ud ut : Int) (udstk utstk : List Int) (ujrestS : List JailEntry)
    (jt : Nat) (jtr : List JailEntry)
    (husc : u.symtab.scopes = usc :: uscs)
    (hulayS : u.layerSimple
      = { dataStack := ud :: udstk, tempStack := ut :: utstk,
          jail := JailEntry.bar :: ujrestS })
    (hulayT : u.layerTemporary.jail = JailEntry.pc jt :: jtr)
    (hujt : jt < u.pb.instructions.length) :
    (breakStmtActions token s = some (layerPrison ScopeType.Container s) ∧
     (layerPrison ScopeType.Container s).layerContainer.jail
       = JailEntry.pc s.pb.i :: s.layerContainer.jail ∧
     (layerPrison ScopeType.Container s).layerTemporary = s.layerTemporary ∧
     (layerPrison ScopeType.Container s).layerSimple = s.layerSimple ∧
     (layerPrison ScopeType.Container s).layerFunction = s.layerFunction ∧
     (layerPrison ScopeType.Container s).pb.instructions
       = s.pb.instructions ++ [Instruction.emptyInstr] ∧
     (layerPrison ScopeType.Container s).scopeTypes = s.scopeTypes ∧
     (layerPrison ScopeType.Container s).errors = s.errors) ∧
    (∃ s3, repeatCloseActions r = some s3 ∧
       s3.pb.instructions.length = r.pb.i + 1 ∧
       s3.pb.instructions[r.pb.i]?
         = some { op := Operation.Jpf, arg1 := cond, arg2 := lab } ∧
       (∀ j ∈ J, s3.pb.instructions[j]? = some (jpTo ((r.pb.i + 1 : Nat) : Int))) ∧
       s3.layerContainer
         = { dataStack := dstk, tempStack := tstk, jail := jrest } ∧
       s3.dataAddress = d ∧ s3.tempAddress = t ∧
       s3.layerTemporary = r.layerTemporary ∧ s3.layerSimple = r.layerSimple ∧
       s3.layerFunction = r.layerFunction) ∧
    (∃ s4, endifActions u = some s4 ∧
       s4.layerContainer = u.layerContainer ∧
       s4.layerTemporary.jail = jtr ∧
       s4.pb.instructions[jt]? = some (jpTo (u.pb.instructions.length : Int)) ∧
       (∀ k, k ≠ jt → s4.pb.instructions[k]? = u.pb.instructions[k]?) ∧
       s4.scopeTypes = u.scopeTypes) :=
  ⟨breakStmt_effect token s hdelS hinside,
   repeatClose_effect r cond lab dc dl ssRest sc scs d t dstk tstk J jrest
     hdelR hss hsc hlay hJ,
   endif_effect u usc uscs ud ut udstk utstk ujrestS jt jtr
     husc hulayS hulayT hujt⟩

/-- C1 witness: the three effects at concrete states. -/
theorem C1_break_patched_to_loop_exit_witness :
    (breakStmtActions { type := TokenType.KEYWORD, lexeme := "break", lineno := 1 }
       c1sA = some (layerPrison ScopeType.Container c1sA) ∧
     (layerPrison ScopeType.Container c1sA).layerContainer.jail
       = JailEntry.pc c1sA.pb.i :: c1sA.layerContainer.jail ∧
     (layerPrison ScopeType.Container c1sA).layerTemporary = c1sA.layerTemporary ∧
     (layerPrison ScopeType.Container c1sA).layerSimple = c1sA.layerSimple ∧
     (layerPrison ScopeType.Container c1sA).layerFunction = c1sA.layerFunction ∧
     (layerPrison ScopeType.Container c1sA).pb.instructions
       = c1sA.pb.instructions ++ [Instruction.emptyInstr] ∧
     (layerPrison ScopeType.Container c1sA).scopeTypes = c1sA.scopeTypes ∧
     (layerPrison ScopeType.Container c1sA).errors = c1sA.errors) ∧
    (∃ s3, repeatCloseActions c1rB = some s3 ∧
       s3.pb.instructions.length = c1rB.pb.i + 1 ∧
       s3.pb.instructions[c1rB.pb.i]?
         = some { op := Operation.Jpf, arg1 := Value.direct 5,
                  arg2 := Value.direct 3 } ∧
       (∀ j ∈ ([0] : List Nat),
         s3.pb.instructions[j]? = some (jpTo ((c1rB.pb.i + 1 : Nat) : Int))) ∧
       s3.layerContainer = { dataStack := [], tempStack := [], jail := [] } ∧
       s3.dataAddress = 16 ∧ s3.tempAddress = 1000 ∧
       s3.layerTemporary = c1rB.layerTemporary ∧
       s3.layerSimple = c1rB.layerSimple ∧
       s3.layerFunction = c1rB.layerFunction) ∧
    (∃ s4, endifActions c1uC = some s4 ∧
       s4.layerContainer = c1uC.layerContainer ∧
       s4.layerTemporary.jail = [] ∧
       s4.pb.instructions[0]? = some (jpTo (c1uC.pb.instructions.length : Int)) ∧
       (∀ k, k ≠ 0 → s4.pb.instructions[k]? = c1uC.pb.instructions[k]?) ∧
       s4.scopeTypes = c1uC.scopeTypes) :=
  C1_break_patched_to_loop_exit
    { type := TokenType.KEYWORD, lexeme := "break", lineno := 1 } c1sA
    rfl (by decide)
    c1rB (Value.direct 5) (Value.direct 3) "cond" "lab" [] {} []
    16 1000 [] [] [0] []
    rfl rfl rfl rfl (by decide)
    c1uC {} [] 16 1000 [] [] [] 0 []
    rfl rfl rfl (by decide)

/-! ## C2: the call protocol's return-address pair -/

theorem bindEqSome {α β : Type} (x : Option α) (f : α → Option β) (b : β)
    (h : x >>= f = some b) : ∃ a, x = some a ∧ f a = some b := by
  cases x with
  | none => cases h
  | some a => exact ⟨a, rfl, h⟩

/-- Relation between two states of one call sequence: the register file and
symbol table are untouched and the program block has only grown at the
end. -/
def CallFrameExt (s t : CGState) : Prop :=
  t.rf = s.rf ∧ t.symtab = s.symtab ∧
  ∃ L, t.pb.instructions = s.pb.instructions ++ L

theorem callExt_refl (s : CGState) : CallFrameExt s s :=
  ⟨rfl, rfl, [], (List.append_nil _).symm⟩

theorem callExt_trans {s t u : CGState} (h1 : CallFrameExt s t)
    (h2 : CallFrameExt t u) : CallFrameExt s u := by
  obtain ⟨hr1, hs1, L1, hp1⟩ := h1
  obtain ⟨hr2, hs2, L2, hp2⟩ := h2
  exact ⟨hr2.trans hr1, hs2.trans hs1, L1 ++ L2,
    by rw [hp2, hp1, List.append_assoc]⟩

theorem callExt_emit (s : CGState) (i : Instruction) :
    CallFrameExt s (s.emit i) :=
  ⟨rfl, rfl, [i], rfl⟩

theorem callExt_asPush (v : Value) (s : CGState) :
    CallFrameExt s (asPush v s) :=
  callExt_trans (callExt_emit s _) (callExt_emit _ _)

theorem callExt_asPop (a : Value) (s : CGState) :
    CallFrameExt s (asPop a s) :=
  callExt_trans (callExt_emit s _) (callExt_emit _ _)

theorem callExt_asPushRf (s : CGState) : CallFrameExt s (asPushRf s) :=
  callExt_trans (callExt_trans (callExt_asPush _ s) (callExt_asPush _ _))
    (callExt_asPush _ _)

theorem callExt_asPopRf (s : CGState) : CallFrameExt s (asPopRf s) :=
  callExt_trans (callExt_trans (callExt_asPop _ s) (callExt_asPop _ _))
    (callExt_asPop _ _)

theorem callExt_foldl {α : Type} (f : CGState → α → CGState)
    (hf : ∀ s a, CallFrameExt s (f s a)) :
    ∀ (l : List α) (s : CGState), CallFrameExt s (l.foldl f s)
  | [], s => callExt_refl s
  | a :: l, s => callExt_trans (hf s a) (callExt_foldl f hf l (f s a))

theorem callExt_logError (s : CGState) (ln : Nat) (msg : String) :
    CallFrameExt s (s.logError ln msg) :=
  ⟨rfl, rfl, [], (List.append_nil _).symm⟩

theorem callExt_store (s t : CGState) (h : store s = some t) :
    CallFrameExt s t := by
  unfold store at h
  obtain ⟨dp, hdp, h⟩ := bindEqSome _ _ _ h
  obtain ⟨tp, htp, h⟩ := bindEqSome _ _ _ h
  obtain rfl : _ = t := Option.some.inj h
  exact callExt_trans
    (callExt_trans (callExt_foldl _ (fun s a => callExt_asPush _ s) _ _)
      (callExt_foldl _ (fun s a => callExt_asPush _ s) _ _))
    (callExt_asPushRf _)

theorem callExt_ssPop (s : CGState) (it : SSItem) (t : CGState)
    (h : ssPop s = some (it, t)) : CallFrameExt s t := by
  unfold ssPop at h
  cases hss : s.ss with
  | nil => rw [hss] at h; cases h
  | cons e rest =>
      rw [hss] at h
      obtain ⟨-, h2⟩ := Prod.mk.injEq .. ▸ Option.some.inj h
      exact h2 ▸ ⟨rfl, rfl, [], (List.append_nil _).symm⟩

theorem callExt_pushArgsLoop :
    ∀ (n : Nat) (acc : List IdType) (s : CGState)
      (res : List IdType × CGState),
      pushArgsLoop n acc s = some res → CallFrameExt s res.2 := by
  intro n
  induction n with
  | zero =>
      intro acc s res h
      obtain rfl : _ = res := Option.some.inj h
      exact callExt_refl s
  | succ n ih =>
      intro acc s res h
      unfold pushArgsLoop at h
      obtain ⟨⟨it, s'⟩, hpop, h⟩ := bindEqSome _ _ _ h
      obtain ⟨arg, harg, h⟩ := bindEqSome _ _ _ h
      exact callExt_trans (callExt_ssPop s it s' hpop)
        (callExt_trans (callExt_asPush arg s') (ih _ _ _ h))

theorem callExt_pushArgs (s : CGState) (res : List IdType × CGState)
    (h : pushArgs s = some res) : CallFrameExt s res.2 := by
  unfold pushArgs at h
  cases hap : s.argPointer with
  | nil => rw [hap] at h; cases h
  | cons d rest =>
      rw [hap] at h
      obtain ⟨⟨acc, s'⟩, hloop, h⟩ := bindEqSome _ _ _ h
      obtain rfl : _ = res := Option.some.inj h
      have hmid : CallFrameExt { s with argPointer := rest } s' :=
        callExt_pushArgsLoop _ _ _ _ hloop
      exact callExt_trans ⟨rfl, rfl, [], (List.append_nil _).symm⟩ hmid

theorem callExt_restore (s t : CGState) (h : restore s = some t) :
    CallFrameExt s t := by
  unfold restore at h
  obtain ⟨tp, htp, h⟩ := bindEqSome _ _ _ h
  obtain ⟨dp, hdp, h⟩ := bindEqSome _ _ _ h
  obtain rfl : _ = t := Option.some.inj h
  exact callExt_trans (callExt_asPopRf s)
    (callExt_trans (callExt_foldl _ (fun s a => callExt_asPop _ s) _ _)
      (callExt_foldl _ (fun s a => callExt_asPop _ s) _ _))

theorem callExt_collect (rt : IdType) (s : CGState) :
    CallFrameExt s (collect rt s) :=
  ⟨rfl, rfl, _, rfl⟩

theorem firstM_instno (v : Option Int) :
    ∀ (l : List Scope) (fid : SymId),
      l.firstM (fun sc => sc.lookupByInstno v) = some fid →
      fid.address = v ∧ fid.type = IdType.Function := by
  intro l
  induction l with
  | nil => intro fid h; cases h
  | cons a l ih =>
      intro fid h
      unfold List.firstM at h
      cases hfa : a.lookupByInstno v with
      | some x =>
          rw [hfa] at h
          have hx : x = fid := by simpa using h
          subst hx
          have hp := List.find?_some hfa
          simp only [Bool.and_eq_true, beq_iff_eq] at hp
          exact hp
      | none =>
          rw [hfa] at h
          exact ih fid (by simpa using h)

theorem lookupByInstno_spec (st : SymbolTable) (v : Option Int) (fid : SymId)
    (h : st.lookupByInstno v = some fid) :
    fid.address = v ∧ fid.type = IdType.Function :=
  firstM_instno v st.scopes fid h

theorem getElem?_append_pair (xs L : List Instruction) (a b : Instruction) :
    (xs ++ a :: b :: L)[xs.length]? = some a ∧
    (xs ++ a :: b :: L)[xs.length + 1]? = some b := by
  constructor
  · rw [List.getElem?_append_right (Nat.le_refl _)]
    simp
  · rw [List.getElem?_append_right (Nat.le_add_right _ _)]
    simp

/-- The state after function_call's two signature checks (the same term
the checks produce inside functionCall). -/
def argCheckState (token : Token) (fid : SymId) (argsType : List IdType)
    (sC : CGState) : CGState :=
  let s := if argsType.length ≠ fid.argsType.length then
      sC.logError token.lineno
        ("Mismatch in numbers of arguments of '" ++ fid.lexeme ++ "'.")
    else sC
  let arglen := min argsType.length fid.argsType.length
  (((argsType.take arglen).zip (fid.argsType.take arglen)).enum).foldl
    (fun s p =>
      if p.2.1 = p.2.2 ∨ p.2.1 = IdType.NotSpecified then s
      else s.logError token.lineno
        ("Mismatch in type of argument " ++ toString (p.1 + 1) ++ " of '"
          ++ fid.lexeme ++ "'. Expected '" ++ p.2.2.value ++ "' but got '"
          ++ p.2.1.value ++ "' instead.")) s

theorem callExt_argCheckState (token : Token) (fid : SymId)
    (argsType : List IdType) (sC : CGState) :
    CallFrameExt sC (argCheckState token fid argsType sC) := by
  unfold argCheckState
  have h1 : CallFrameExt sC (if argsType.length ≠ fid.argsType.length then
      sC.logError token.lineno
        ("Mismatch in numbers of arguments of '" ++ fid.lexeme ++ "'.")
    else sC) := by
    split
    · exact callExt_logError _ _ _
    · exact callExt_refl _
  exact callExt_trans h1 (callExt_foldl _ (fun s p => by
    split
    · exact callExt_refl _
    · exact callExt_logError _ _ _) _ _)

theorem callTail_spec (sE : CGState) (instno : Value) (rt : IdType)
    (s1 : CGState)
    (h : restore
        ((sE.emit { op := Operation.Assign,
                    arg1 := Value.immediate ((sE.pb.i : Int) + 2),
                    arg2 := Value.direct sE.rf.ra }).emit
          { op := Operation.Jp, arg1 := instno })
        >>= (fun s => some (collect rt s)) = some s1) :
    s1.pb.instructions[sE.pb.instructions.length]?
      = some { op := Operation.Assign,
               arg1 := Value.immediate ((sE.pb.instructions.length : Int) + 2),
               arg2 := Value.direct sE.rf.ra } ∧
    s1.pb.instructions[sE.pb.instructions.length + 1]?
      = some { op := Operation.Jp, arg1 := instno } := by
  obtain ⟨sH, hH, h⟩ := bindEqSome _ _ _ h
  obtain rfl : _ = s1 := Option.some.inj h
  obtain ⟨hr8, hs8, L1, hp8⟩ := callExt_restore _ _ hH
  obtain ⟨hr9, hs9, L2, hp9⟩ := callExt_collect rt sH
  simp only [CGState.emit, ProgramBlock.appendInstr] at hp8
  rw [hp9, hp8]
  simp only [List.append_assoc, List.singleton_append, List.cons_append,
    List.nil_append]
  exact getElem?_append_pair _ _ _ _

/-- C2: function_call, after the store and argument pushes and the
signature checks, emits `ASSIGN #(pc+2) -> ra` (pc being the program
counter at the moment the ASSIGN is appended at index k, so the stored
value k+2 is the index of the first instruction after the jump) followed
immediately by `JP instno`, where instno is the value looked up by
lookup_by_instno: the address of a Function record of the symbol table,
i.e. the callee's entry instruction index. -/
theorem C2_function_call_return_address (s : CGState) (token : Token)
    (s1 : CGState) (h : functionCall token s = some s1) :
    ∃ (k : Nat) (instno : Value) (fid : SymId),
      s1.pb.instructions[k]?
        = some { op := Operation.Assign,
                 arg1 := Value.immediate ((k : Int) + 2),
                 arg2 := Value.direct s.rf.ra } ∧
      s1.pb.instructions[k + 1]? = some { op := Operation.Jp, arg1 := instno } ∧
      s.symtab.lookupByInstno instno.value = some fid ∧
      fid.address = instno.value ∧ fid.type = IdType.Function := by
  unfold functionCall at h
  obtain ⟨sA, hA, h⟩ := bindEqSome _ _ _ h
  obtain ⟨⟨argsType, sB⟩, hB, h⟩ := bindEqSome _ _ _ h
  obtain ⟨⟨item, sC⟩, hC, h⟩ := bindEqSome _ _ _ h
  obtain ⟨instno, hI, h⟩ := bindEqSome _ _ _ h
  obtain ⟨fid, hF, h⟩ := bindEqSome _ _ _ h
  have h' : restore
      (((argCheckState token fid argsType sC).emit
          { op := Operation.Assign,
            arg1 := Value.immediate
                      (((argCheckState token fid argsType sC).pb.i : Int) + 2),
            arg2 := Value.direct
                      (argCheckState token fid argsType sC).rf.ra }).emit
        { op := Operation.Jp, arg1 := instno })
      >>= (fun s => some (collect fid.returnType s)) = some s1 := h
  obtain ⟨hk1, hk2⟩ := callTail_spec (argCheckState token fid argsType sC)
    instno fid.returnType s1 h'
  have e1 := callExt_store s sA hA
  have e2 : CallFrameExt sA sB := callExt_pushArgs sA _ hB
  have e3 := callExt_ssPop sB item sC hC
  have e4 := callExt_argCheckState token fid argsType sC
  have erf : (argCheckState token fid argsType sC).rf = s.rf :=
    (callExt_trans (callExt_trans (callExt_trans e1 e2) e3) e4).1
  have esym : sC.symtab = s.symtab :=
    (callExt_trans (callExt_trans e1 e2) e3).2.1
  refine ⟨(argCheckState token fid argsType sC).pb.instructions.length,
    instno, fid, ?_, hk2, ?_,
    (lookupByInstno_spec _ _ _ hF).1, (lookupByInstno_spec _ _ _ hF).2⟩
  · rw [← erf]
    exact hk1
  · rw [← esym]
    exact hF

def c2tok : Token := { type := TokenType.ID, lexeme := "f", lineno := 3 }

def c2state : CGState :=
  { dataPointer := some 16,
    tempPointer := some 1000,
    argPointer := [1],
    ss := [{ value := SSItem.val (Value.direct 0 IdType.Function),
             description := "f" }],
    symtab := { scopes := [{ locals := [{ lexeme := "f", address := some 0,
                                          type := IdType.Function,
                                          argsType := [],
                                          returnType := IdType.Int }] }] } }

def c2res : CGState := (functionCall c2tok c2state).getD c2state

/-- C2 witness: the return-address pair of a concrete call. -/
theorem C2_function_call_return_address_witness :
    ∃ (k : Nat) (instno : Value) (fid : SymId),
      c2res.pb.instructions[k]?
        = some { op := Operation.Assign,
                 arg1 := Value.immediate ((k : Int) + 2),
                 arg2 := Value.direct c2state.rf.ra } ∧
      c2res.pb.instructions[k + 1]? = some { op := Operation.Jp, arg1 := instno } ∧
      c2state.symtab.lookupByInstno instno.value = some fid ∧
      fid.address = instno.value ∧ fid.type = IdType.Function :=
  C2_function_call_return_address c2state c2tok c2res (by decide)
